import Mathlib
/-!
Verification development for the FixEm repository: a FIX 4.2 session
emulator (`emulator/server.py`, `emulator/messageUtils.py`,
`ScenarioEngine.py`) and a certification validator (`cert/validator.py`).

The Python source is shallowly embedded: strings are lists of bytes
(`Str := List Nat`), Python dicts are insertion-ordered association lists
with overwriting insert (`ainsert`), Python floats are modelled as
rationals, and each handler of the source becomes a pure function from
the relevant state to the new state plus the list of outbound messages.
-/
namespace FixEm
/-- Byte strings: a Python `str`, viewed as its UTF-8 byte sequence.
All protocol-relevant content in the source is ASCII. -/
abbrev Str := List Nat
/-- Bytes of an ASCII string literal. -/
def bytes (s : String) : Str := s.data.map Char.toNat
/-- SOH, the FIX field separator (`\x01` in the source). -/
def SOH : Nat := 1
/-- The byte of the character standing between tag and value in a FIX field. -/
def EQB : Nat := 61
/-- ASCII decimal digit test. -/
def isDigitB (b : Nat) : Bool := 48 ≤ b && b ≤ 57
/-- Python `str.strip` whitespace test restricted to ASCII whitespace. -/
def isSpaceB (b : Nat) : Bool := b = 32 || b = 9 || b = 10 || b = 13 || b = 11 || b = 12
/-- Python `str.strip`: drop leading and trailing whitespace. -/
def pstrip (s : Str) : Str := ((s.dropWhile isSpaceB).reverse.dropWhile isSpaceB).reverse
/-- Numeric value of a digit string (most significant first). -/
def digitsVal (ds : Str) : Nat := ds.foldl (fun a d => a * 10 + (d - 48)) 0
/-- Decimal digits of a positive `n`, most significant first, with `fuel`
bounding the recursion depth (structural, so the kernel can evaluate it). -/
def natDigitsAux : Nat → Nat → Str
  | 0, _ => []
  | fuel + 1, n => if n = 0 then [] else natDigitsAux fuel (n / 10) ++ [n % 10 + 48]
/-- Decimal representation of `n`, as Python `str(n)` for `n : Nat`. -/
def natDigits (n : Nat) : Str := if n = 0 then [48] else natDigitsAux n n
/-- Python `f"{n:03}"`: zero-pad the decimal representation to three digits. -/
def pad3 (n : Nat) : Str :=
  List.replicate (3 - (natDigits n).length) 48 ++ natDigits n
/-!  Rational arithmetic wrappers.  The float arithmetic of the source is
modelled over `ℚ`; the library's `Rat.add`/`Rat.sub`/`Rat.mul` are
`@[irreducible]`, so the model uses these definitionally equal wrappers,
which the kernel can evaluate on concrete inputs.  -/
/-- Kernel-evaluable addition on `ℚ`. -/
def qadd (a b : ℚ) : ℚ := mkRat (a.num * b.den + b.num * a.den) (a.den * b.den)
/-- Kernel-evaluable subtraction on `ℚ`. -/
def qsub (a b : ℚ) : ℚ := qadd a (-b)
/-- Kernel-evaluable multiplication on `ℚ`. -/
def qmul (a b : ℚ) : ℚ := mkRat (a.num * b.num) (a.den * b.den)
/-- Python `float(s)` on an unsigned decimal numeral `digits[.digits]`.
The source only ever feeds tag values to `float`; the model covers plain
decimal numerals (the inputs exercised by the protocol), returning `none`
exactly where `float` raises. -/
def pfloatCore (s : Str) : Option ℚ :=
  let ip := s.takeWhile (fun b => isDigitB b)
  let rest := s.dropWhile (fun b => isDigitB b)
  match rest with
  | [] => if ip = [] then none else some (mkRat (digitsVal ip) 1)
  | 46 :: frac =>
      if frac.all (fun b => isDigitB b) ∧ (ip ≠ [] ∨ frac ≠ []) then
        some (mkRat (digitsVal ip * 10 ^ frac.length + digitsVal frac) (10 ^ frac.length))
      else none
  | _ => none
/-- Python `float(s)` with an optional leading sign. -/
def pfloat (s : Str) : Option ℚ :=
  match s with
  | 45 :: rest => (pfloatCore rest).map (fun q => -q)
  | 43 :: rest => pfloatCore rest
  | _ => pfloatCore s
/-- Python `int(s)` on an optionally signed decimal numeral. -/
def pint (s : Str) : Option ℤ :=
  match s with
  | 45 :: rest =>
      if rest ≠ [] ∧ rest.all (fun b => isDigitB b) then some (-(digitsVal rest : ℤ)) else none
  | 43 :: rest =>
      if rest ≠ [] ∧ rest.all (fun b => isDigitB b) then some (digitsVal rest : ℤ) else none
  | _ => if s ≠ [] ∧ s.all (fun b => isDigitB b) then some (digitsVal s : ℤ) else none
/-!  Python dicts, as insertion-ordered association lists keyed by `Str`.
`ainsert` is `d[k] = v` (overwrite in place, else append), `alookup` is
`d.get(k)`, `aerase` is `d.pop(k, None)`.  -/
/-- Python `d[k] = v`: overwrite the value at an existing key in place,
otherwise append the new binding at the end. -/
def ainsert {β : Type} : List (Str × β) → Str → β → List (Str × β)
  | [], t, v => [(t, v)]
  | (t', v') :: rest, t, v =>
      if t' = t then (t', v) :: rest else (t', v') :: ainsert rest t v
/-- Python `d.get(k)`. -/
def alookup {β : Type} (m : List (Str × β)) (t : Str) : Option β :=
  (m.find? (fun p => decide (p.1 = t))).map Prod.snd
/-- Python `k in d`. -/
def acontains {β : Type} (m : List (Str × β)) (t : Str) : Bool :=
  (alookup m t).isSome
/-- Python `d.pop(k)` (the remaining dictionary). -/
def aerase {β : Type} (m : List (Str × β)) (t : Str) : List (Str × β) :=
  m.filter (fun p => !decide (p.1 = t))
/-- Replace the value bound at key `t` by `f` of it (in-place mutation of
the object a Python dict maps `t` to). -/
def aupdate {β : Type} (m : List (Str × β)) (t : Str) (f : β → β) : List (Str × β) :=
  m.map (fun p => if p.1 = t then (p.1, f p.2) else p)
/-- Build a dict from a pair sequence by repeated insertion, as the
parsers' `fields[tag] = value` loops do. -/
def dictOf (ps : List (Str × Str)) : List (Str × Str) :=
  ps.foldl (fun m p => ainsert m p.1 p.2) []
/-!  ## Wire codec: `emulator/messageUtils.py`  -/
/-- Python `s.split(sep)` for a one-byte separator. -/
def splitByte (sep : Nat) : Str → List Str
  | [] => [[]]
  | b :: rest =>
      if b = sep then [] :: splitByte sep rest
      else
        match splitByte sep rest with
        | [] => [[b]]
        | s :: ss => (b :: s) :: ss
/-- `field.split("=", 1)` guarded by `"=" in field`: the segment's text
before the first `=` and everything after it; `none` when no `=` occurs. -/
def splitEq (seg : Str) : Option (Str × Str) :=
  if EQB ∈ seg then
    some (seg.takeWhile (fun b => b ≠ EQB), (seg.dropWhile (fun b => b ≠ EQB)).tail)
  else none
/-- The `(tag, value)` segments of a raw frame, in frame order:
`raw.strip().split(SOH)` with each `=`-bearing segment split at its
first `=` (`ParseFixMessage`'s loop before dict insertion). -/
def parseSegs (raw : Str) : List (Str × Str) :=
  (splitByte SOH (pstrip raw)).filterMap splitEq
/-- `ParseFixMessage` (messageUtils.py): the resulting tag→value dict. -/
def ParseFixMessage (raw : Str) : List (Str × Str) := dictOf (parseSegs raw)
/-- `CalculateChecksum` (messageUtils.py): byte sum modulo 256. -/
def CalculateChecksum (message : Str) : Nat := message.sum % 256
/-- Python `SOH.join(segments)`. -/
def joinSOH : List Str → Str
  | [] => []
  | [s] => s
  | s :: s2 :: rest => s ++ [SOH] ++ joinSOH (s2 :: rest)
/-- The body `BuildFixMessage` computes: the non-8/9/10 fields in caller
order as SOH-joined `tag=value` segments, plus the trailing SOH. -/
def bodyOf (fields : List (Str × Str)) : Str :=
  (joinSOH
    ((fields.filter (fun p =>
        p.1 ≠ bytes "8" ∧ p.1 ≠ bytes "9" ∧ p.1 ≠ bytes "10")).map
      (fun p => p.1 ++ [EQB] ++ p.2))) ++ [SOH]
/-- Every byte of `BuildFixMessage fields` before the trailing
`10=NNN<SOH>`: the `8=`/`9=` header followed by the body — the range the
checksum is computed over. -/
def buildPrefixOf (fields : List (Str × Str)) : Str :=
  bytes "8=FIX.4.2" ++ [SOH] ++ bytes "9=" ++ natDigits (bodyOf fields).length
    ++ [SOH] ++ bodyOf fields
/-- `BuildFixMessage` (messageUtils.py): body from all fields except
tags 8, 9, 10 in caller order, `8=FIX.4.2` and `9=<len(body)>` header,
trailing `10=<checksum>` over every byte that precedes it. -/
def BuildFixMessage (fields : List (Str × Str)) : Str :=
  let msgWithoutChecksum := buildPrefixOf fields
  let checksum := CalculateChecksum msgWithoutChecksum
  msgWithoutChecksum ++ bytes "10=" ++ pad3 checksum ++ [SOH]
/-!  ## Log parsing: `cert/validator.py`, `ParseMessages`  -/
/-- One iteration of `ParseMessages` (validator.py): split the line on
`|` when a `|` occurs in it, else on SOH, and build the tag→value dict. -/
def parseLogSegs (line : Str) : List (Str × Str) :=
  let delimiter := if (124 : Nat) ∈ line then 124 else SOH
  (splitByte delimiter line).filterMap splitEq
/-- The dict `ParseMessages` builds for one log line. -/
def parseLogLine (line : Str) : List (Str × Str) := dictOf (parseLogSegs line)
/-!  ## Certification validator: `cert/validator.py`  -/
/-- `customTagsByType` (validator.py constructor), looked up with
`.get(msgType, [])`. -/
def customTagsByType (msgType : Str) : List Str :=
  if msgType = bytes "A" then []
  else if msgType = bytes "D" then [bytes "44", bytes "9140"]
  else if msgType = bytes "8" then [bytes "20"]
  else if msgType = bytes "5" then []
  else []
/-- The structured content of a `CheckFields` verdict: the three error
lists the source interpolates into its verdict string.  The verdict
string is `"Valid <label>"` exactly when all three are empty. -/
structure Verdict where
  missing : List Str
  unexpected : List Str
  condErrors : List (Str × Str)
deriving DecidableEq, Repr
/-- `CheckFields` (validator.py): missing required tags, tags outside
`required ∪ optional ∪ customAllowed`, and conditional pairs with exactly
one side present. -/
def CheckFields (requiredFields optionalFields : List Str)
    (conditionalPairs : List (Str × Str)) (msg : List (Str × Str)) : Verdict :=
  let msgType := (alookup msg (bytes "35")).getD []
  let customTags := customTagsByType msgType
  let missing := requiredFields.filter (fun tag => !acontains msg tag)
  let allowed := requiredFields ++ optionalFields ++ customTags
  let unexpected := (msg.map Prod.fst).filter (fun tag => !decide (tag ∈ allowed))
  let condErrors := conditionalPairs.filter
    (fun p => xor (acontains msg p.1) (acontains msg p.2))
  ⟨missing, unexpected, condErrors⟩
/-- The verdict string carries no error exactly when the source prints
`"✅ Valid <label>"`. -/
def Verdict.isValid (v : Verdict) : Bool :=
  v.missing = [] && v.unexpected = [] && v.condErrors = []
/-- `ValidateLogon`'s schema (validator.py). -/
def logonRequired : List Str :=
  [bytes "8", bytes "9", bytes "35", bytes "49", bytes "56", bytes "34",
   bytes "52", bytes "98", bytes "108", bytes "10"]
def logonOptional : List Str :=
  [bytes "95", bytes "96", bytes "141", bytes "553", bytes "554", bytes "1137"]
def logonConditionals : List (Str × Str) := [(bytes "95", bytes "96")]
/-- `ValidateLogout`'s schema (validator.py). -/
def logoutRequired : List Str :=
  [bytes "8", bytes "9", bytes "35", bytes "49", bytes "56", bytes "34",
   bytes "52", bytes "10"]
def logoutOptional : List Str := [bytes "58"]
def logoutConditionals : List (Str × Str) := []
/-- `ValidateNewOrder`'s schema (validator.py). -/
def newOrderRequired : List Str :=
  [bytes "8", bytes "9", bytes "35", bytes "49", bytes "56", bytes "34",
   bytes "52", bytes "11", bytes "21", bytes "55", bytes "54", bytes "38",
   bytes "40", bytes "60", bytes "10"]
def newOrderOptional : List Str :=
  [bytes "59", bytes "47", bytes "58", bytes "18", bytes "44", bytes "15",
   bytes "100", bytes "207", bytes "848", bytes "849", bytes "99",
   bytes "110", bytes "111"]
def newOrderConditionals : List (Str × Str) :=
  [(bytes "48", bytes "22"), (bytes "95", bytes "96")]
/-- `ValidateExecutionReport`'s schema (validator.py). -/
def execReportRequired : List Str :=
  [bytes "8", bytes "9", bytes "35", bytes "49", bytes "56", bytes "34",
   bytes "52", bytes "11", bytes "17", bytes "150", bytes "39", bytes "55",
   bytes "54", bytes "38", bytes "40", bytes "44", bytes "14", bytes "6",
   bytes "10"]
def execReportOptional : List Str :=
  [bytes "32", bytes "31", bytes "29", bytes "37", bytes "198", bytes "75",
   bytes "105", bytes "60", bytes "151", bytes "100", bytes "207",
   bytes "848", bytes "849", bytes "15"]
def execReportConditionals : List (Str × Str) :=
  [(bytes "48", bytes "22"), (bytes "95", bytes "96")]
/-- The required/optional/conditional schema `ValidateMsgType` dispatches
to, for the four known MsgTypes. -/
def schemaOf (msgType : Str) : Option (List Str × List Str × List (Str × Str)) :=
  if msgType = bytes "A" then some (logonRequired, logonOptional, logonConditionals)
  else if msgType = bytes "D" then some (newOrderRequired, newOrderOptional, newOrderConditionals)
  else if msgType = bytes "8" then some (execReportRequired, execReportOptional, execReportConditionals)
  else if msgType = bytes "5" then some (logoutRequired, logoutOptional, logoutConditionals)
  else none
/-- `ValidateMsgType` (validator.py): dispatch on tag 35; unknown types
get no structural verdict (the source emits a skip warning). -/
def ValidateMsgType (msgType : Str) (msg : List (Str × Str)) : Option Verdict :=
  (schemaOf msgType).map (fun s => CheckFields s.1 s.2.1 s.2.2 msg)
/-!  ## Session handler and order store: `emulator/server.py`

The per-connection handler `HandleClient` is embedded as a pure
dispatch over parsed inbound dicts.  Wall-clock artefacts (tags 52/60,
the epoch-millisecond part of `orderId`/`execId`) are supplied as an
explicit `epochMs` input; the constant comp-id echo tags 49/56 and the
free-text tag 58 are not modelled.  Outbound messages are recorded as
`Out` values holding the fields the development reasons about.  -/
/-- A parsed inbound FIX message (the dict `ParseFixMessage` returns). -/
abbrev Msg := List (Str × Str)
/-- The order-status strings the server stores (`"NEW"`,
`"PARTIALLY_FILLED"`, …), as an enumeration. -/
inductive Status where
  | new
  | partiallyFilled
  | filled
  | canceled
  | replaced
  | rejected
deriving DecidableEq, Repr
/-- One entry of the process-wide `orders` dict of `FixEmulatorServer`.
`qty`/`price`/`ordType`/`side` are stored as the raw tag strings, as the
source does; `cumQty`/`leavesQty` are floats, modelled as rationals.
`price` is an `Option` because the 35=G path stores `fixFields.get("44")`,
which is `None` when tag 44 is absent. -/
structure Order where
  orderId : Str
  execId : Str
  symbol : Str
  side : Str
  qty : Str
  price : Option Str
  ordType : Str
  status : Status
  clOrdID : Str
  currentClOrdId : Str
  lastClOrdId : Str
  history : List Str
  cumQty : ℚ
  leavesQty : ℚ
deriving DecidableEq, Repr
/-- Per-session mutable server state: the order store and the `outSeq`
counter (initialised to 1 in the constructor). -/
structure SState where
  orders : List (Str × Order)
  outSeq : ℤ
deriving DecidableEq, Repr
/-- The fresh server state (`orders = {}`, `outSeq = 1`). -/
def initState : SState := ⟨[], 1⟩
/-- An outbound message, restricted to the fields the claims observe:
tag 35, 150, 39, 11, 41, 371, 373, the numeric 32/14/151, and tag 34. -/
structure Out where
  msgType : Str
  execType : Option Str := none
  ordStatus : Option Str := none
  clOrdId : Option Str := none
  origClOrdId : Option Str := none
  refTagId : Option Str := none
  rejReason : Option Str := none
  lastQty : Option ℚ := none
  cumQty14 : Option ℚ := none
  leavesQty151 : Option ℚ := none
  seq34 : ℤ
deriving DecidableEq, Repr
/-- `str(int(fixFields.get('34', '0')) + 1)`: the echo-based outbound
sequence number most response paths of `HandleClient` use.  `int()`
raises on a non-numeric value (unhandled in the source); the model is
only applied where tag 34 is a numeral, so `pint` succeeds there. -/
def echoIncSeq (fixFields : Msg) : ℤ :=
  (pint ((alookup fixFields (bytes "34")).getD (bytes "0"))).getD 0 + 1
/-- `not fixFields.get(tag)`: the tag is absent or its value is empty. -/
def tagFalsy (fixFields : Msg) (tag : Str) : Bool :=
  match alookup fixFields tag with
  | none => true
  | some v => decide (v = [])
/-- The value-error test every numeric validation of `HandleClient`
performs: `float(s)` succeeds and the value is strictly positive. -/
def posNum (s : Str) : Bool :=
  match pfloat s with
  | none => false
  | some q => decide (0 < q)
/-- A 35=3 session reject carrying 371 and 373. -/
def reject3 (refTag reason : Str) (seq : ℤ) : Out :=
  { msgType := bytes "3", refTagId := some refTag, rejReason := some reason, seq34 := seq }
/-- A business reject sent as an ExecutionReport with 150=8, 39=8. -/
def execReject8 (clOrdId : Str) (orig : Option Str) (seq : ℤ) : Out :=
  { msgType := bytes "8", execType := some (bytes "8"), ordStatus := some (bytes "8"),
    clOrdId := some clOrdId, origClOrdId := orig, seq34 := seq }
/-- Result of one application-message handler: the new state, the
responses written to the socket, and the `(clOrdID, symbol)` pairs the
handler passes to `ScenarioEngine.runBehavior` (empty or a singleton). -/
structure HResult where
  state : SState
  outs : List Out
  scenInvoked : List (Str × Str)
deriving Repr
/-- The required-tag dict of the 35=D branch, in its insertion order. -/
def requiredTagsD : List Str :=
  [bytes "11", bytes "54", bytes "38", bytes "55", bytes "40"]
/-- The 35=D (NewOrderSingle) branch of `HandleClient`: the validation
ladder, order creation, the ack, and the scenario invocation request. -/
def handleD (st : SState) (epochMs : Nat) (m : Msg) : HResult :=
  let clOrdId := (alookup m (bytes "11")).getD []
  let side := (alookup m (bytes "54")).getD []
  let qty := (alookup m (bytes "38")).getD []
  let symbol := (alookup m (bytes "55")).getD []
  let ordType := (alookup m (bytes "40")).getD []
  let price := (alookup m (bytes "44")).getD (bytes "0")
  match requiredTagsD.filter (fun t => tagFalsy m t) with
  | missing :: _ => ⟨st, [reject3 missing (bytes "1") (echoIncSeq m)], []⟩
  | [] =>
    if !posNum qty then
      ⟨st, [reject3 (bytes "38") (bytes "5") (echoIncSeq m)], []⟩
    else if !(ordType = bytes "1" || ordType = bytes "2") then
      ⟨st, [reject3 (bytes "40") (bytes "2") (echoIncSeq m)], []⟩
    else if ordType = bytes "2" && !posNum price then
      ⟨st, [reject3 (bytes "44") (bytes "5") (echoIncSeq m)], []⟩
    else if acontains st.orders clOrdId then
      ⟨st, [execReject8 clOrdId none (echoIncSeq m)], []⟩
    else
      let order : Order :=
        { orderId := bytes "OR" ++ natDigits epochMs
          execId := bytes "EX" ++ natDigits epochMs
          symbol := symbol
          side := side
          qty := qty
          price := some price
          ordType := ordType
          status := Status.new
          clOrdID := clOrdId
          currentClOrdId := clOrdId
          lastClOrdId := clOrdId
          history := [clOrdId]
          cumQty := 0
          leavesQty := if qty = [] then 0 else (pfloat qty).getD 0 }
      let ack : Out :=
        { msgType := bytes "8", execType := some (bytes "0"),
          ordStatus := some (bytes "0"), clOrdId := some clOrdId,
          seq34 := echoIncSeq m }
      ⟨{ st with orders := ainsert st.orders clOrdId order }, [ack], [(clOrdId, symbol)]⟩
/-- The required-tag dict of the 35=F branch, in its insertion order. -/
def requiredTagsF : List Str :=
  [bytes "11", bytes "41", bytes "55", bytes "54"]
/-- The 35=F (OrderCancelRequest) branch of `HandleClient`.  On success
it mutates the stored order in place (status, current/last ClOrdID,
history); the dict itself is not rekeyed, so the order stays under its
old key.  The scenario engine is never invoked from this branch. -/
def handleF (st : SState) (m : Msg) : HResult :=
  let origClOrdId := (alookup m (bytes "41")).getD []
  let newClOrdId := (alookup m (bytes "11")).getD []
  match requiredTagsF.filter (fun t => tagFalsy m t) with
  | missing :: _ => ⟨st, [reject3 missing (bytes "1") (echoIncSeq m)], []⟩
  | [] =>
    if acontains st.orders newClOrdId then
      ⟨st, [execReject8 newClOrdId (some origClOrdId) (echoIncSeq m)], []⟩
    else
      match alookup st.orders origClOrdId with
      | none => ⟨st, [execReject8 newClOrdId (some origClOrdId) (echoIncSeq m)], []⟩
      | some order =>
        if order.status = Status.canceled then
          ⟨st, [execReject8 newClOrdId (some origClOrdId) (echoIncSeq m)], []⟩
        else
          let order' :=
            { order with
                status := Status.canceled
                lastClOrdId := newClOrdId
                currentClOrdId := newClOrdId
                history := order.history ++ [newClOrdId] }
          let ack : Out :=
            { msgType := bytes "8", execType := some (bytes "4"),
              ordStatus := some (bytes "4"), clOrdId := some newClOrdId,
              origClOrdId := some origClOrdId, seq34 := echoIncSeq m }
          ⟨{ st with orders := aupdate st.orders origClOrdId (fun _ => order') },
            [ack], []⟩
/-- The required-tag dict of the 35=G branch, in its insertion order. -/
def requiredTagsG : List Str :=
  [bytes "11", bytes "41", bytes "55", bytes "54", bytes "38", bytes "40"]
/-- The 35=G (OrderCancelReplaceRequest) branch of `HandleClient`.  On
success it overwrites qty/price/ordType/side/symbol, appends to history,
rekeys the store (`pop` old key, insert new key), and sends 150=5/39=5;
`status`, `cumQty` and `leavesQty` are left untouched. -/
def handleG (st : SState) (m : Msg) : HResult :=
  let origClOrdId := (alookup m (bytes "41")).getD []
  let newClOrdId := (alookup m (bytes "11")).getD []
  let symbol := (alookup m (bytes "55")).getD []
  let side := (alookup m (bytes "54")).getD []
  let qty := (alookup m (bytes "38")).getD []
  let ordType := (alookup m (bytes "40")).getD []
  let price : Option Str := alookup m (bytes "44")
  match requiredTagsG.filter (fun t => tagFalsy m t) with
  | missing :: _ => ⟨st, [reject3 missing (bytes "1") (echoIncSeq m)], []⟩
  | [] =>
    if acontains st.orders newClOrdId then
      ⟨st, [execReject8 newClOrdId (some origClOrdId) (echoIncSeq m)], []⟩
    else
      match alookup st.orders origClOrdId with
      | none => ⟨st, [execReject8 newClOrdId (some origClOrdId) (echoIncSeq m)], []⟩
      | some order =>
        if !posNum qty then
          ⟨st, [reject3 (bytes "38") (bytes "5") (echoIncSeq m)], []⟩
        else if ordType = bytes "2" && !(match price with
            | none => false
            | some p => posNum p) then
          ⟨st, [reject3 (bytes "44") (bytes "5") (echoIncSeq m)], []⟩
        else
          let order' :=
            { order with
                qty := qty
                price := price
                ordType := ordType
                side := side
                symbol := symbol
                currentClOrdId := newClOrdId
                lastClOrdId := newClOrdId
                history := order.history ++ [newClOrdId] }
          let ack : Out :=
            { msgType := bytes "8", execType := some (bytes "5"),
              ordStatus := some (bytes "5"), clOrdId := some newClOrdId,
              origClOrdId := some origClOrdId, seq34 := echoIncSeq m }
          ⟨{ st with orders := ainsert (aerase st.orders origClOrdId) newClOrdId order' },
            [ack], [(newClOrdId, symbol)]⟩
/-- The ordStatus→status map applied in `_sendScenarioExec`, with the
source's `.get(…, order.get("status", "NEW"))` fallback. -/
def statusOfOrdStatus (s : Str) (old : Status) : Status :=
  if s = bytes "0" then Status.new
  else if s = bytes "1" then Status.partiallyFilled
  else if s = bytes "2" then Status.filled
  else if s = bytes "4" then Status.canceled
  else if s = bytes "5" then Status.replaced
  else if s = bytes "8" then Status.rejected
  else old
/-- `_sendScenarioExec` (server.py): compute the execution fields for a
scenario action, write the updated quantities and status back to the
stored order (`key` is the store key the order sits under), emit one
ExecutionReport with `34 = _nextOutboundSeq()`.  Actions `new` and
unsupported actions return without mutating or emitting. -/
def sendScenarioExec (st : SState) (key : Str) (order : Order) (action : Str) :
    SState × List Out :=
  let origQty := (pfloat order.qty).getD 0
  let cumQty := order.cumQty
  let leavesQty := order.leavesQty
  let emit := fun (execType ordStatus : Str) (lastQty cumQty' leavesQty' : ℚ) =>
    let order' :=
      { order with
          cumQty := cumQty'
          leavesQty := leavesQty'
          status := statusOfOrdStatus ordStatus order.status }
    let seq := st.outSeq + 1
    (SState.mk (aupdate st.orders key (fun _ => order')) seq,
      [{ msgType := bytes "8", execType := some execType,
         ordStatus := some ordStatus, clOrdId := some order.currentClOrdId,
         lastQty := some lastQty, cumQty14 := some cumQty',
         leavesQty151 := some leavesQty', seq34 := seq : Out }])
  if action = bytes "new" then (st, [])
  else if action = bytes "partial" then
    let fillQty := if 0 < leavesQty then qmul leavesQty (mkRat 1 4) else 0
    let cumQty' := qadd cumQty fillQty
    let leavesQty' := qsub leavesQty fillQty
    emit (bytes "1") (if 0 < leavesQty' then bytes "1" else bytes "2")
      fillQty cumQty' leavesQty'
  else if action = bytes "full_fill" || action = bytes "fill" then
    emit (bytes "2") (bytes "2") (if 0 < leavesQty then leavesQty else origQty) origQty 0
  else if action = bytes "cancel" then
    emit (bytes "4") (bytes "4") 0 cumQty leavesQty
  else if action = bytes "reject" then
    emit (bytes "8") (bytes "8") 0 cumQty leavesQty
  else if action = bytes "replace_ack" then
    emit (bytes "5") (bytes "5") 0 cumQty leavesQty
  else (st, [])
/-- `HandleScenarioAction` (server.py): look the order up by the
scenario object's `clOrdID` and delegate; a missing order is a no-op. -/
def HandleScenarioAction (st : SState) (clOrdId : Str) (action : Str) :
    SState × List Out :=
  match alookup st.orders clOrdId with
  | none => (st, [])
  | some order => sendScenarioExec st clOrdId order action
/-!  ## Scenario engine: `ScenarioEngine.py`  -/
/-- One scenario step: a YAML dict holding exactly one of the keys
`send`, `delay`, `wait_for`, `end`, or none of them (`unknown` records
such a dict by a key it does hold). -/
inductive Step where
  | send (action : Str)
  | delay (ms : Nat)
  | waitFor (ev : Str)
  | done
  | unknown (key : Str)
deriving DecidableEq, Repr
/-- The error message `executeStep` raises for an unsupported step. -/
def unsupportedStepMsg (key : Str) : Str :=
  bytes "[ERROR] Unsupported scenario step: " ++ key
/-- `executeStep` (ScenarioEngine.py): `send` routes back into the
server, `delay` sleeps, `wait_for` is a logged stub, `end` merely
returns, and an unknown step raises (the `Option Str` error). -/
def executeStep (st : SState) (clOrdId : Str) : Step → SState × List Out × Option Str
  | Step.send action =>
      let r := HandleScenarioAction st clOrdId action
      (r.1, r.2, none)
  | Step.delay _ => (st, [], none)
  | Step.waitFor _ => (st, [], none)
  | Step.done => (st, [], none)
  | Step.unknown key => (st, [], some (unsupportedStepMsg key))
/-- `runBehavior`'s step loop: execute in order until a step raises; the
raised error propagates together with the state and output so far. -/
def runSteps (st : SState) (clOrdId : Str) : List Step → SState × List Out × Option Str
  | [] => (st, [], none)
  | step :: rest =>
      match executeStep st clOrdId step with
      | (st', outs, some e) => (st', outs, some e)
      | (st', outs, none) =>
          let r := runSteps st' clOrdId rest
          (r.1, outs ++ r.2.1, r.2.2)
/-- `runBehavior` (ScenarioEngine.py): raise when the behavior name is
unknown, else run its step list. -/
def runBehavior (behaviors : List (Str × List Step)) (st : SState)
    (clOrdId behaviorName : Str) : SState × List Out × Option Str :=
  match alookup behaviors behaviorName with
  | none => (st, [], some (bytes "[ERROR] Behavior not found."))
  | some steps => runSteps st clOrdId steps
/-!  ## Session loop: `HandleClient` dispatch and behavior resolution  -/
/-- A compiled rule (`compileRules` in ConfigLoader.py): the fnmatch
closure and the behavior name. -/
structure Rule where
  matchFn : Str → Bool
  behavior : Str
/-- A session's execution config plus the behavior library. -/
structure SessionConfig where
  defaultBehavior : Str
  rules : List Rule
  behaviors : List (Str × List Step)
/-- The behavior-resolution loop of `HandleClient`: first matching rule
wins, else the default behavior. -/
def chooseBehavior (cfg : SessionConfig) (symbol : Str) : Str :=
  match cfg.rules.find? (fun r => r.matchFn symbol) with
  | some r => r.behavior
  | none => cfg.defaultBehavior
/-- What one inbound message leaves the connection in: still serving,
closed by Logout, or the handler thread killed by an uncaught
exception. -/
inductive SessOutcome where
  | cont
  | closed
  | crashed (e : Str)
deriving DecidableEq, Repr
/-- The result of dispatching one inbound message. -/
structure StepResult where
  state : SState
  outs : List Out
  outcome : SessOutcome
deriving Repr
/-- Run the scenario invocations a handler requested (at most one):
resolve the behavior from the symbol and execute it; an error raised by
`runBehavior` propagates out of `HandleClient` uncaught. -/
def runInvocations (cfg : SessionConfig) (r : HResult) : StepResult :=
  match r.scenInvoked with
  | [] => ⟨r.state, r.outs, SessOutcome.cont⟩
  | (c, sym) :: _ =>
      let b := chooseBehavior cfg sym
      let res := runBehavior cfg.behaviors r.state c b
      ⟨res.1, r.outs ++ res.2.1,
        match res.2.2 with
        | none => SessOutcome.cont
        | some e => SessOutcome.crashed e⟩
/-- The per-message dispatch of `HandleClient` on tag 35: Logon replies
with a hard-coded `34=1`, Heartbeat and Logout echo `incoming 34 + 1`,
Logout closes the connection, D/F/G run the application handlers, and
anything else is logged without a response. -/
def sessStep (cfg : SessionConfig) (st : SState) (epochMs : Nat) (m : Msg) :
    StepResult :=
  match alookup m (bytes "35") with
  | some t =>
    if t = bytes "A" then
      ⟨st, [{ msgType := bytes "A", seq34 := 1 }], SessOutcome.cont⟩
    else if t = bytes "0" then
      ⟨st, [{ msgType := bytes "0", seq34 := echoIncSeq m }], SessOutcome.cont⟩
    else if t = bytes "5" then
      ⟨st, [{ msgType := bytes "5", seq34 := echoIncSeq m }], SessOutcome.closed⟩
    else if t = bytes "D" then runInvocations cfg (handleD st epochMs m)
    else if t = bytes "F" then
      let r := handleF st m
      ⟨r.state, r.outs, SessOutcome.cont⟩
    else if t = bytes "G" then runInvocations cfg (handleG st m)
    else ⟨st, [], SessOutcome.cont⟩
  | none => ⟨st, [], SessOutcome.cont⟩
/-- The message loop of `HandleClient` over a list of inbound messages
(each with the epoch-milliseconds reading used for generated ids).
After Logout, or after an exception crashes the handler thread, the
remaining inbound messages are no longer served. -/
def sessRun (cfg : SessionConfig) (st : SState) :
    List (Nat × Msg) → SState × List Out
  | [] => (st, [])
  | (ep, m) :: rest =>
      let r := sessStep cfg st ep m
      match r.outcome with
      | SessOutcome.cont =>
          let res := sessRun cfg r.state rest
          (res.1, r.outs ++ res.2)
      | SessOutcome.closed => (r.state, r.outs)
      | SessOutcome.crashed _ => (r.state, r.outs)
/-!  ## Operation sequences over the order store

The store-level operations a session subjects the Order Store to:
accepted-or-rejected NewOrderSingle, Cancel, Cancel/Replace, and
scenario actions.  -/
/-- One store-level operation. -/
inductive Op where
  | nos (epochMs : Nat) (m : Msg)
  | cancel (m : Msg)
  | replace (m : Msg)
  | scen (clOrdId action : Str)
/-- Whether the operation is a 35=G Cancel/Replace. -/
def Op.isReplace : Op → Bool
  | Op.replace _ => true
  | _ => false
/-- Apply one operation to the server state. -/
def stepOp (st : SState) : Op → SState
  | Op.nos ep m => (handleD st ep m).state
  | Op.cancel m => (handleF st m).state
  | Op.replace m => (handleG st m).state
  | Op.scen c a => (HandleScenarioAction st c a).1
/-- Apply a sequence of operations from left to right. -/
def runOps (st : SState) (ops : List Op) : SState := ops.foldl stepOp st
/-- The `origQty` reading `_sendScenarioExec` performs on a stored
order: `float(order["qty"])` with the `except: 0.0` fallback. -/
def origQtyOf (o : Order) : ℚ := (pfloat o.qty).getD 0
/-!  ## Association-list laws for the Python-dict model  -/
/-!  ## The cum/leaves bookkeeping invariant  -/
/-- Every stored order's `cumQty + leavesQty` equals the float reading of
its stored `qty` string. -/
def cumLeavesExact (st : SState) : Prop :=
  ∀ p ∈ st.orders, (p.2).cumQty + (p.2).leavesQty = origQtyOf p.2
/-!  ## Concrete fixtures used by witnesses and counterexamples  -/
/-- A valid NewOrderSingle: ORD1, Buy 100 AAPL, Limit 150.25, seq 5. -/
def mD1 : Msg :=
  [(bytes "35", bytes "D"), (bytes "34", bytes "5"), (bytes "11", bytes "ORD1"),
   (bytes "54", bytes "1"), (bytes "38", bytes "100"), (bytes "55", bytes "AAPL"),
   (bytes "40", bytes "2"), (bytes "44", bytes "150.25")]
/-- A valid OrderCancelRequest renaming ORD1 to ORD2. -/
def mF1 : Msg :=
  [(bytes "35", bytes "F"), (bytes "34", bytes "6"), (bytes "11", bytes "ORD2"),
   (bytes "41", bytes "ORD1"), (bytes "55", bytes "AAPL"), (bytes "54", bytes "1")]
/-- A valid Cancel/Replace of ORD1 to ORD2 shrinking the quantity to 50
(market order, so no price check applies). -/
def mG1 : Msg :=
  [(bytes "35", bytes "G"), (bytes "34", bytes "6"), (bytes "11", bytes "ORD2"),
   (bytes "41", bytes "ORD1"), (bytes "55", bytes "AAPL"), (bytes "54", bytes "1"),
   (bytes "38", bytes "50"), (bytes "40", bytes "1")]
/-- The Cancel/Replace of the spec's end-to-end scenario 5: ORD1 → ORD2,
qty 200, limit 151.00. -/
def mG2 : Msg :=
  [(bytes "35", bytes "G"), (bytes "34", bytes "6"), (bytes "11", bytes "ORD2"),
   (bytes "41", bytes "ORD1"), (bytes "55", bytes "AAPL"), (bytes "54", bytes "1"),
   (bytes "38", bytes "200"), (bytes "40", bytes "2"), (bytes "44", bytes "151.00")]
/-- A NewOrderSingle with all required tags but a zero OrderQty. -/
def mBadQty : Msg :=
  [(bytes "35", bytes "D"), (bytes "11", bytes "ORD9"), (bytes "54", bytes "1"),
   (bytes "38", bytes "0"), (bytes "55", bytes "AAPL"), (bytes "40", bytes "1")]
/-- A NewOrderSingle with an unsupported OrdType 3. -/
def mBadOrdType : Msg :=
  [(bytes "35", bytes "D"), (bytes "11", bytes "ORD9"), (bytes "54", bytes "1"),
   (bytes "38", bytes "100"), (bytes "55", bytes "AAPL"), (bytes "40", bytes "3")]
/-- A Limit NewOrderSingle without tag 44 (the price defaults to "0"). -/
def mBadPrice : Msg :=
  [(bytes "35", bytes "D"), (bytes "11", bytes "ORD9"), (bytes "54", bytes "1"),
   (bytes "38", bytes "100"), (bytes "55", bytes "AAPL"), (bytes "40", bytes "2")]
/-- A client Logon with seq 1. -/
def mLogon : Msg := [(bytes "35", bytes "A"), (bytes "34", bytes "1")]
/-- A client Heartbeat with seq 5. -/
def mHB : Msg := [(bytes "35", bytes "0"), (bytes "34", bytes "5")]
/-- The store after accepting `mD1` at epoch-ms 7. -/
def stD : SState := (handleD initState 7 mD1).state
/-- The order record `mD1`'s acceptance stores under key ORD1. -/
def ordD1w : Order :=
  { orderId := bytes "OR7", execId := bytes "EX7", symbol := bytes "AAPL",
    side := bytes "1", qty := bytes "100", price := some (bytes "150.25"),
    ordType := bytes "2", status := Status.new, clOrdID := bytes "ORD1",
    currentClOrdId := bytes "ORD1", lastClOrdId := bytes "ORD1",
    history := [bytes "ORD1"], cumQty := 0, leavesQty := 100 }
/-!  ## C1  -/
/-!  ## C2  -/
/-!  ## C3  -/
/-- The order record a successful 35=G leaves in the store: the one the
request found under tag 41, with qty/price/ordType/side/symbol taken
from the request, both current ids moved to the new ClOrdID, and the
history extended — status, cumQty and leavesQty untouched. -/
def replacedOrder (m : Msg) (new : Str) (order : Order) : Order :=
  { order with
      qty := (alookup m (bytes "38")).getD []
      price := alookup m (bytes "44")
      ordType := (alookup m (bytes "40")).getD []
      side := (alookup m (bytes "54")).getD []
      symbol := (alookup m (bytes "55")).getD []
      currentClOrdId := new
      lastClOrdId := new
      history := order.history ++ [new] }
/-!  ## C4  -/
/-- A session config binding every symbol to the behavior `b`, which
sends a single full fill. -/
def cfgFill : SessionConfig :=
  ⟨bytes "b", [], [(bytes "b", [Step.send (bytes "fill")])]⟩
/-!  ## C5  -/
/-!  ## C6  -/
/-!  ## C8  -/
/-- The Logon line of the spec's validator scenario, as a parsed dict. -/
def mVal : Msg :=
  [(bytes "8", bytes "FIX.4.2"), (bytes "9", bytes "60"), (bytes "35", bytes "A"),
   (bytes "49", bytes "A"), (bytes "56", bytes "B"), (bytes "34", bytes "1"),
   (bytes "52", bytes "T"), (bytes "98", bytes "0"), (bytes "108", bytes "30"),
   (bytes "10", bytes "123")]
/-!  ## C9  -/
/-- Whether a scenario step is a dict with none of the known keys. -/
def Step.isUnknown : Step → Bool
  | Step.unknown _ => true
  | _ => false
/-- A session config whose behavior contains an unknown step key. -/
def cfgBad : SessionConfig :=
  ⟨bytes "b", [], [(bytes "b", [Step.unknown (bytes "bogus")])]⟩
/-!  ## C10  -/
/-!  ## C7: lemmas about the frame builder and parser  -/
/-- The well-formedness of a caller-supplied field map the round-trip
law quantifies over: tags are the textual forms of positive integers
other than 8, 9 and 10, and values are free of the SOH byte. -/
def wfFields (fields : List (Str × Str)) : Prop :=
  ∀ p ∈ fields, p.1 ≠ [] ∧ (∀ b ∈ p.1, isDigitB b = true) ∧
    p.1 ≠ bytes "8" ∧ p.1 ≠ bytes "9" ∧ p.1 ≠ bytes "10" ∧ SOH ∉ p.2
/-!  ## C7  -/
theorem qadd_eq (a b : ℚ) : qadd a b = a + b := by
  rw [qadd, Rat.mkRat_eq_div]
  push_cast
  conv_rhs => rw [← Rat.num_div_den a, ← Rat.num_div_den b]
  have ha : (a.den : ℚ) ≠ 0 := by positivity
  have hb : (b.den : ℚ) ≠ 0 := by positivity
  field_simp
theorem qsub_eq (a b : ℚ) : qsub a b = a - b := by
  rw [qsub, qadd_eq, sub_eq_add_neg]
theorem qmul_eq (a b : ℚ) : qmul a b = a * b := by
  rw [qmul, Rat.mkRat_eq_div]
  push_cast
  conv_rhs => rw [← Rat.num_div_den a, ← Rat.num_div_den b]
  have ha : (a.den : ℚ) ≠ 0 := by positivity
  have hb : (b.den : ℚ) ≠ 0 := by positivity
  field_simp
theorem alookup_cons_self {β : Type} (pk : Str) (pv : β) (rest : List (Str × β)) :
    alookup ((pk, pv) :: rest) pk = some pv := by
  simp [alookup, List.find?]
theorem alookup_cons_ne {β : Type} {pk t : Str} (pv : β) (rest : List (Str × β))
    (h : pk ≠ t) : alookup ((pk, pv) :: rest) t = alookup rest t := by
  simp [alookup, List.find?, h]
theorem ainsert_cons {β : Type} (pk t : Str) (pv v : β) (rest : List (Str × β)) :
    ainsert ((pk, pv) :: rest) t v =
      if pk = t then (pk, v) :: rest else (pk, pv) :: ainsert rest t v := by
  rfl
theorem aupdate_cons {β : Type} (pk k : Str) (pv : β) (f : β → β)
    (rest : List (Str × β)) :
    aupdate ((pk, pv) :: rest) k f =
      (if pk = k then (pk, f pv) else (pk, pv)) :: aupdate rest k f := by
  rfl
theorem alookup_ainsert_self {β : Type} (m : List (Str × β)) (t : Str) (v : β) :
    alookup (ainsert m t v) t = some v := by
  induction m with
  | nil => simp [ainsert, alookup, List.find?]
  | cons p rest ih =>
      obtain ⟨pk, pv⟩ := p
      rw [ainsert_cons]
      by_cases h : pk = t
      · subst h
        simp [alookup_cons_self]
      · rw [if_neg h, alookup_cons_ne _ _ h]
        exact ih
theorem alookup_ainsert_ne {β : Type} (m : List (Str × β)) (a t : Str) (v : β)
    (h : a ≠ t) : alookup (ainsert m a v) t = alookup m t := by
  induction m with
  | nil => simp [ainsert, alookup, List.find?, h]
  | cons p rest ih =>
      obtain ⟨pk, pv⟩ := p
      rw [ainsert_cons]
      by_cases hp : pk = a
      · subst hp
        rw [if_pos rfl, alookup_cons_ne _ _ h, alookup_cons_ne _ _ h]
      · rw [if_neg hp]
        by_cases hpt : pk = t
        · subst hpt
          rw [alookup_cons_self, alookup_cons_self]
        · rw [alookup_cons_ne _ _ hpt, alookup_cons_ne _ _ hpt]
          exact ih
theorem mem_ainsert {β : Type} {m : List (Str × β)} {t : Str} {v : β}
    {p : Str × β} (h : p ∈ ainsert m t v) : p ∈ m ∨ p = (t, v) := by
  induction m with
  | nil => simpa [ainsert] using h
  | cons q rest ih =>
      by_cases hq : q.1 = t
      · rcases (by simpa [ainsert, hq] using h) with h1 | h1
        · right
          rw [h1, ← hq]
        · exact Or.inl (List.mem_cons_of_mem _ h1)
      · rcases (by simpa [ainsert, hq] using h) with h1 | h1
        · exact Or.inl (by simp [h1])
        · rcases ih h1 with h2 | h2
          · exact Or.inl (List.mem_cons_of_mem _ h2)
          · exact Or.inr h2
theorem mem_of_alookup_eq_some {β : Type} {m : List (Str × β)} {t : Str} {v : β}
    (h : alookup m t = some v) : (t, v) ∈ m := by
  rw [alookup] at h
  rcases Option.map_eq_some'.mp h with ⟨p, hp, hv⟩
  have hmem := List.mem_of_find?_eq_some hp
  have hkey : p.1 = t := by simpa using List.find?_some hp
  have : p = (t, v) := by
    cases p
    simp only at hkey hv
    rw [hkey, hv]
  rwa [this] at hmem
theorem alookup_aupdate_of_lookup {β : Type} (m : List (Str × β)) (t : Str)
    (v w : β) (h : alookup m t = some w) :
    alookup (aupdate m t (fun _ => v)) t = some v := by
  induction m with
  | nil => simp [alookup, List.find?] at h
  | cons p rest ih =>
      obtain ⟨pk, pv⟩ := p
      rw [aupdate_cons]
      by_cases hp : pk = t
      · subst hp
        rw [if_pos rfl, alookup_cons_self]
      · rw [if_neg hp, alookup_cons_ne _ _ hp]
        rw [alookup_cons_ne _ _ hp] at h
        exact ih h
theorem alookup_aupdate_ne {β : Type} (m : List (Str × β)) (k t : Str)
    (f : β → β) (h : k ≠ t) : alookup (aupdate m k f) t = alookup m t := by
  induction m with
  | nil => simp [aupdate, alookup]
  | cons p rest ih =>
      obtain ⟨pk, pv⟩ := p
      rw [aupdate_cons]
      by_cases hp : pk = k
      · subst hp
        have hpt : pk ≠ t := h
        rw [if_pos rfl, alookup_cons_ne _ _ hpt, alookup_cons_ne _ _ hpt]
        exact ih
      · rw [if_neg hp]
        by_cases hpt : pk = t
        · subst hpt
          rw [alookup_cons_self, alookup_cons_self]
        · rw [alookup_cons_ne _ _ hpt, alookup_cons_ne _ _ hpt]
          exact ih
theorem acontains_aupdate {β : Type} (m : List (Str × β)) (k t : Str)
    (f : β → β) : acontains (aupdate m k f) t = acontains m t := by
  induction m with
  | nil => simp [aupdate]
  | cons p rest ih =>
      obtain ⟨pk, pv⟩ := p
      rw [acontains, acontains, aupdate_cons]
      by_cases hpt : pk = t
      · subst hpt
        by_cases hp : pk = k
        · rw [if_pos hp]
          simp [alookup_cons_self]
        · rw [if_neg hp]
          simp [alookup_cons_self]
      · rw [acontains, acontains] at ih
        by_cases hp : pk = k
        · rw [if_pos hp, alookup_cons_ne _ _ hpt, alookup_cons_ne _ _ hpt]
          exact ih
        · rw [if_neg hp, alookup_cons_ne _ _ hpt, alookup_cons_ne _ _ hpt]
          exact ih
theorem alookup_aerase_self {β : Type} (m : List (Str × β)) (t : Str) :
    alookup (aerase m t) t = none := by
  induction m with
  | nil => simp [aerase, alookup]
  | cons p rest ih =>
      obtain ⟨pk, pv⟩ := p
      by_cases hp : pk = t
      · simpa [aerase, hp] using ih
      · rw [aerase, List.filter_cons_of_pos (by simpa using hp),
          alookup_cons_ne _ _ hp]
        exact ih
/-- Looking a key up in a dict built by repeated insertion finds the
value of the key's last occurrence in the inserted pair sequence. -/
theorem alookup_foldl_ainsert (ps : List (Str × Str)) (m : List (Str × Str)) (t : Str) :
    alookup (ps.foldl (fun m p => ainsert m p.1 p.2) m) t =
      match (ps.filter (fun p => decide (p.1 = t))).getLast? with
      | some p => some p.2
      | none => alookup m t := by
  induction ps generalizing m with
  | nil => simp
  | cons a rest ih =>
      rw [List.foldl_cons, ih]
      by_cases ha : a.1 = t
      · rw [List.filter_cons_of_pos (by simpa using ha)]
        cases hfp : (rest.filter (fun p => decide (p.1 = t))).getLast? with
        | some p => simp [List.getLast?_cons, hfp]
        | none =>
            simp only [List.getLast?_cons, hfp, Option.getD_none]
            rw [ha] at *
            simp [alookup_ainsert_self]
      · rw [List.filter_cons_of_neg (by simpa using ha)]
        cases hfp : (rest.filter (fun p => decide (p.1 = t))).getLast? with
        | some p => simp [hfp]
        | none => simp [hfp, alookup_ainsert_ne _ _ _ _ ha]
/-- `dictOf` binds every key to the value of its last occurrence. -/
theorem alookup_dictOf (ps : List (Str × Str)) (t : Str) :
    alookup (dictOf ps) t =
      ((ps.filter (fun p => decide (p.1 = t))).getLast?).map Prod.snd := by
  rw [dictOf, alookup_foldl_ainsert]
  cases hfp : (ps.filter (fun p => decide (p.1 = t))).getLast? with
  | some p => simp
  | none => simp [alookup]
theorem cumLeavesExact_handleD (st : SState) (ep : Nat) (m : Msg)
    (h : cumLeavesExact st) : cumLeavesExact (handleD st ep m).state := by
  rw [handleD]
  cases hm : requiredTagsD.filter (fun t => tagFalsy m t) with
  | cons a l => simpa using h
  | nil =>
      simp only []
      split
      · exact h
      · split
        · exact h
        · split
          · exact h
          · split
            · exact h
            · intro p hp
              rcases mem_ainsert hp with hold | hnew
              · exact h p hold
              · subst hnew
                simp only [origQtyOf]
                by_cases hq : (alookup m (bytes "38")).getD [] = [] <;>
                  simp [hq, pfloat, pfloatCore]
theorem cumLeavesExact_handleF (st : SState) (m : Msg)
    (h : cumLeavesExact st) : cumLeavesExact (handleF st m).state := by
  rw [handleF]
  cases hm : requiredTagsF.filter (fun t => tagFalsy m t) with
  | cons a l => simpa using h
  | nil =>
      simp only []
      split
      · exact h
      · cases horder : alookup st.orders ((alookup m (bytes "41")).getD []) with
        | none => simpa [horder] using h
        | some order =>
            simp only [horder]
            split
            · exact h
            · intro p hp
              simp only [aupdate, List.mem_map] at hp
              rcases hp with ⟨q, hq, hpq⟩
              by_cases hqk : q.1 = (alookup m (bytes "41")).getD []
              · have hordmem := mem_of_alookup_eq_some horder
                have := h _ hordmem
                simp only [hqk, if_pos] at hpq
                subst hpq
                simpa using this
              · simp only [hqk, if_neg, ite_false] at hpq
                subst hpq
                exact h q hq
theorem cumLeavesExact_sendScenarioExec (st : SState) (key : Str)
    (order : Order) (action : Str)
    (horder : order.cumQty + order.leavesQty = origQtyOf order)
    (h : cumLeavesExact st) :
    cumLeavesExact (sendScenarioExec st key order action).1 := by
  have hemit : ∀ (os : Str) (c l : ℚ), c + l = origQtyOf order →
      cumLeavesExact (SState.mk
        (aupdate st.orders key
          (fun _ => { order with
                      cumQty := c
                      leavesQty := l
                      status := statusOfOrdStatus os order.status }))
        (st.outSeq + 1)) := by
    intro os c l hcl p hp
    simp only [aupdate, List.mem_map] at hp
    rcases hp with ⟨q, hq, hpq⟩
    by_cases hqk : q.1 = key
    · simp only [hqk, if_pos] at hpq
      subst hpq
      simpa [origQtyOf] using hcl
    · simp only [hqk, if_neg, ite_false] at hpq
      subst hpq
      exact h q hq
  rw [sendScenarioExec]
  split
  · exact h
  · split
    · -- partial: the fill moves quantity from leaves to cum
      refine hemit _ _ _ ?_
      rw [qadd_eq, qsub_eq]
      linarith [horder]
    · split
      · -- full fill: cum = origQty, leaves = 0
        refine hemit _ _ _ ?_
        simp [origQtyOf]
      · split
        · exact hemit _ _ _ horder
        · split
          · exact hemit _ _ _ horder
          · split
            · exact hemit _ _ _ horder
            · exact h
theorem cumLeavesExact_scen (st : SState) (c a : Str)
    (h : cumLeavesExact st) : cumLeavesExact (HandleScenarioAction st c a).1 := by
  rw [HandleScenarioAction]
  cases horder : alookup st.orders c with
  | none => exact h
  | some order =>
      exact cumLeavesExact_sendScenarioExec st c order a
        (h _ (mem_of_alookup_eq_some horder)) h
theorem cumLeavesExact_stepOp (st : SState) (op : Op)
    (hop : op.isReplace = false) (h : cumLeavesExact st) :
    cumLeavesExact (stepOp st op) := by
  cases op with
  | nos ep m => exact cumLeavesExact_handleD st ep m h
  | cancel m => exact cumLeavesExact_handleF st m h
  | replace m => simp [Op.isReplace] at hop
  | scen c a => exact cumLeavesExact_scen st c a h
theorem cumLeavesExact_runOps (ops : List Op) (st : SState)
    (hnr : ∀ op ∈ ops, op.isReplace = false) (h : cumLeavesExact st) :
    cumLeavesExact (runOps st ops) := by
  induction ops generalizing st with
  | nil => exact h
  | cons op rest ih =>
      rw [runOps, List.foldl_cons]
      exact ih (stepOp st op) (fun o ho => hnr o (List.mem_cons_of_mem _ ho))
        (cumLeavesExact_stepOp st op (hnr op (List.mem_cons_self _ _)) h)
/-- C1 (corrected: Cancel/Replace excluded): after any sequence of
NewOrderSingle, Cancel and scenario send operations, every stored order
satisfies `cumQty + leavesQty ≤ origQty`, with equality whenever its
status is not Canceled and not Rejected.  A 35=G Cancel/Replace is
excluded because it overwrites `qty` without touching `cumQty` or
`leavesQty`. -/
theorem cumLeavesInvariant_noReplace (ops : List Op)
    (hnr : ∀ op ∈ ops, op.isReplace = false) (k : Str) (o : Order)
    (hmem : (k, o) ∈ (runOps initState ops).orders) :
    o.cumQty + o.leavesQty ≤ origQtyOf o ∧
      (o.status ≠ Status.canceled ∧ o.status ≠ Status.rejected →
        o.cumQty + o.leavesQty = origQtyOf o) := by
  have hexact : cumLeavesExact (runOps initState ops) :=
    cumLeavesExact_runOps ops initState hnr (by intro p hp; simp [initState] at hp)
  have heq := hexact (k, o) hmem
  exact ⟨le_of_eq heq, fun _ => heq⟩
/-- Witness for C1: the invariant evaluated after accepting `mD1`. -/
theorem cumLeavesInvariant_noReplace_witness :
    (∀ op ∈ [Op.nos 7 mD1], op.isReplace = false) ∧
    (bytes "ORD1", ordD1w) ∈ (runOps initState [Op.nos 7 mD1]).orders ∧
    (ordD1w.cumQty + ordD1w.leavesQty ≤ origQtyOf ordD1w ∧
      (ordD1w.status ≠ Status.canceled ∧ ordD1w.status ≠ Status.rejected →
        ordD1w.cumQty + ordD1w.leavesQty = origQtyOf ordD1w)) :=
  ⟨by decide, by decide,
    cumLeavesInvariant_noReplace [Op.nos 7 mD1] (by decide) (bytes "ORD1") ordD1w
      (by decide)⟩
/-- Counterexample to C1 as stated: accept ORD1 for 100, then replace it
by ORD2 with quantity 50.  The stored order has `cumQty + leavesQty =
100 > 50 = origQty` while its status is New (neither Canceled nor
Rejected), so both the inequality and the equality of the claim fail. -/
theorem cumLeavesInvariant_replace_cex :
    (alookup (runOps initState [Op.nos 7 mD1, Op.replace mG1]).orders
        (bytes "ORD2")).map
      (fun o => (decide (qadd o.cumQty o.leavesQty ≤ origQtyOf o), o.status)) =
      some (false, Status.new) := by decide
/-- C2 (corrected: the 35=F branch does not rekey the store): a
successful OrderCancelRequest renaming `orig` to `new` leaves the order
under its OLD key `orig` with status Canceled, `currentClOrdId = new`
and history ending in `new`; `new` does not become a store key; exactly
one ExecutionReport with 150=4 and 39=4 is sent and the Scenario Engine
is not invoked. -/
theorem handleF_success_spec (st : SState) (m : Msg) (orig new : Str)
    (order : Order)
    (hmiss : requiredTagsF.filter (fun t => tagFalsy m t) = [])
    (horig : alookup m (bytes "41") = some orig)
    (hnew : alookup m (bytes "11") = some new)
    (hdup : acontains st.orders new = false)
    (hord : alookup st.orders orig = some order)
    (hnc : order.status ≠ Status.canceled) :
    (handleF st m).state.orders =
        aupdate st.orders orig (fun _ =>
          { order with
              status := Status.canceled
              lastClOrdId := new
              currentClOrdId := new
              history := order.history ++ [new] }) ∧
      (alookup (handleF st m).state.orders orig).map Order.status =
        some Status.canceled ∧
      (alookup (handleF st m).state.orders orig).map
        (fun o => o.history.getLast?) = some (some new) ∧
      acontains (handleF st m).state.orders new = false ∧
      (handleF st m).outs =
        [{ msgType := bytes "8", execType := some (bytes "4"),
           ordStatus := some (bytes "4"), clOrdId := some new,
           origClOrdId := some orig, seq34 := echoIncSeq m }] ∧
      (handleF st m).scenInvoked = [] := by
  have e41 : (alookup m (bytes "41")).getD [] = orig := by rw [horig]; rfl
  have e11 : (alookup m (bytes "11")).getD [] = new := by rw [hnew]; rfl
  have hF : handleF st m =
      ⟨{ st with orders := aupdate st.orders orig (fun _ =>
          { order with
              status := Status.canceled
              lastClOrdId := new
              currentClOrdId := new
              history := order.history ++ [new] }) },
        [{ msgType := bytes "8", execType := some (bytes "4"),
           ordStatus := some (bytes "4"), clOrdId := some new,
           origClOrdId := some orig, seq34 := echoIncSeq m }], []⟩ := by
    rw [handleF, hmiss]
    simp only [e41, e11, hdup, hord, Bool.false_eq_true, if_false, if_neg hnc]
  rw [hF]
  refine ⟨rfl, ?_, ?_, ?_, rfl, rfl⟩
  · rw [alookup_aupdate_of_lookup _ _ _ _ hord]
    rfl
  · rw [alookup_aupdate_of_lookup _ _ _ _ hord]
    simp
  · rw [acontains_aupdate]
    exact hdup
/-- Witness for C2: the cancel of the spec's scenario applied to the
store holding ORD1. -/
theorem handleF_success_spec_witness :
    (handleF stD mF1).state.orders =
        aupdate stD.orders (bytes "ORD1") (fun _ =>
          { ordD1w with
              status := Status.canceled
              lastClOrdId := bytes "ORD2"
              currentClOrdId := bytes "ORD2"
              history := ordD1w.history ++ [bytes "ORD2"] }) ∧
      (alookup (handleF stD mF1).state.orders (bytes "ORD1")).map Order.status =
        some Status.canceled ∧
      (alookup (handleF stD mF1).state.orders (bytes "ORD1")).map
        (fun o => o.history.getLast?) = some (some (bytes "ORD2")) ∧
      acontains (handleF stD mF1).state.orders (bytes "ORD2") = false ∧
      (handleF stD mF1).outs =
        [{ msgType := bytes "8", execType := some (bytes "4"),
           ordStatus := some (bytes "4"), clOrdId := some (bytes "ORD2"),
           origClOrdId := some (bytes "ORD1"), seq34 := echoIncSeq mF1 }] ∧
      (handleF stD mF1).scenInvoked = [] :=
  handleF_success_spec stD mF1 (bytes "ORD1") (bytes "ORD2") ordD1w
    (by decide) (by decide) (by decide) (by decide) (by decide) (by decide)
/-- Counterexample to C2 as stated: after the successful cancel renaming
ORD1 to ORD2, the store does NOT map ORD2 (the claim says it does), and
it still contains ORD1 (the claim says the old key is removed). -/
theorem handleF_no_rekey_cex :
    alookup (handleF stD mF1).state.orders (bytes "ORD2") = none ∧
      (alookup (handleF stD mF1).state.orders (bytes "ORD1")).map Order.status =
        some Status.canceled := by decide
/-- C3 (corrected: the stored status is NOT set to Replaced): a
successful OrderCancelReplaceRequest replacing `orig` by `new` rekeys
the store (old key gone, `new` maps to the order), overwrites
qty/price/ordType/side/symbol, appends `new` to the history, leaves the
stored `status` unchanged, replies with one ExecutionReport carrying
150=5 and 39=5, and invokes the Scenario Engine on the new symbol. -/
theorem handleG_success_spec (st : SState) (m : Msg) (orig new : Str)
    (order : Order)
    (hmiss : requiredTagsG.filter (fun t => tagFalsy m t) = [])
    (horig : alookup m (bytes "41") = some orig)
    (hnew : alookup m (bytes "11") = some new)
    (hdup : acontains st.orders new = false)
    (hord : alookup st.orders orig = some order)
    (hq : posNum ((alookup m (bytes "38")).getD []) = true)
    (hp : (((alookup m (bytes "40")).getD [] = bytes "2") &&
        !(match alookup m (bytes "44") with
          | none => false
          | some p => posNum p)) = false) :
    (handleG st m).state.orders =
        ainsert (aerase st.orders orig) new (replacedOrder m new order) ∧
      alookup (handleG st m).state.orders new =
        some (replacedOrder m new order) ∧
      acontains (handleG st m).state.orders orig = false ∧
      (alookup (handleG st m).state.orders new).map Order.status =
        some order.status ∧
      (handleG st m).outs =
        [{ msgType := bytes "8", execType := some (bytes "5"),
           ordStatus := some (bytes "5"), clOrdId := some new,
           origClOrdId := some orig, seq34 := echoIncSeq m }] ∧
      (handleG st m).scenInvoked = [(new, (alookup m (bytes "55")).getD [])] := by
  have e41 : (alookup m (bytes "41")).getD [] = orig := by rw [horig]; rfl
  have e11 : (alookup m (bytes "11")).getD [] = new := by rw [hnew]; rfl
  have hno : orig ≠ new := by
    intro hcon
    rw [acontains, ← hcon, hord] at hdup
    simp at hdup
  have hG : handleG st m =
      ⟨{ st with orders :=
          ainsert (aerase st.orders orig) new (replacedOrder m new order) },
        [{ msgType := bytes "8", execType := some (bytes "5"),
           ordStatus := some (bytes "5"), clOrdId := some new,
           origClOrdId := some orig, seq34 := echoIncSeq m }],
        [(new, (alookup m (bytes "55")).getD [])]⟩ := by
    rw [handleG, hmiss]
    simp only [e41, e11, hdup, hord, hq, hp, Bool.false_eq_true, if_false,
      Bool.not_true, if_true, replacedOrder]
  rw [hG]
  refine ⟨rfl, ?_, ?_, ?_, rfl, rfl⟩
  · rw [alookup_ainsert_self]
  · rw [acontains, alookup_ainsert_ne _ _ _ _ (fun hcon => hno hcon.symm),
      alookup_aerase_self]
    rfl
  · rw [alookup_ainsert_self]
    rfl
/-- Witness for C3: the spec's Cancel/Replace scenario (ORD1 → ORD2,
qty 200) applied to the store holding ORD1. -/
theorem handleG_success_spec_witness :
    (handleG stD mG2).state.orders =
        ainsert (aerase stD.orders (bytes "ORD1")) (bytes "ORD2")
          (replacedOrder mG2 (bytes "ORD2") ordD1w) ∧
      alookup (handleG stD mG2).state.orders (bytes "ORD2") =
        some (replacedOrder mG2 (bytes "ORD2") ordD1w) ∧
      acontains (handleG stD mG2).state.orders (bytes "ORD1") = false ∧
      (alookup (handleG stD mG2).state.orders (bytes "ORD2")).map Order.status =
        some ordD1w.status ∧
      (handleG stD mG2).outs =
        [{ msgType := bytes "8", execType := some (bytes "5"),
           ordStatus := some (bytes "5"), clOrdId := some (bytes "ORD2"),
           origClOrdId := some (bytes "ORD1"), seq34 := echoIncSeq mG2 }] ∧
      (handleG stD mG2).scenInvoked =
        [(bytes "ORD2", (alookup mG2 (bytes "55")).getD [])] :=
  handleG_success_spec stD mG2 (bytes "ORD1") (bytes "ORD2") ordD1w
    (by decide) (by decide) (by decide) (by decide) (by decide) (by decide)
    (by decide)
/-- Counterexample to C3 as stated: after the successful replace, the
stored order's status is still New, not Replaced. -/
theorem handleG_status_cex :
    (alookup (handleG stD mG2).state.orders (bytes "ORD2")).map Order.status =
        some Status.new ∧ Status.new ≠ Status.replaced := by decide
/-- C4 is a code bug: the source mixes a hard-coded `34=1` (Logon), the
echo `incoming 34 + 1` (heartbeats, rejects, order acks) and the
separate `outSeq` counter starting at 2 (scenario ExecutionReports).
Evaluated on a session receiving Logon then an accepted NewOrderSingle
with 34=5 whose symbol resolves to a one-fill behavior, the outbound
tag-34 values are 1, 6, 2 — not strictly increasing; and on a session
whose first inbound is a Heartbeat with 34=5, the first outbound
carries 6, not 1. -/
theorem outboundSeq_divergence :
    (sessRun cfgFill initState [(1, mLogon), (2, mD1)]).2.map Out.seq34 =
        [1, 6, 2] ∧
      ¬ ((6 : ℤ) < 2) ∧
      (sessRun cfgFill initState [(1, mHB)]).2.map Out.seq34 = [6] ∧
      (6 : ℤ) ≠ 1 := by decide
/-- C5: the 35=D validation ladder rejects on the first failing check,
in the source's order: (1) a falsy required tag 11/54/38/55/40 gives a
35=3 reject with 373=1 and 371 = the first such tag; (2) a tag 38 that
does not parse to a positive number gives 35=3 with 371=38, 373=5;
(3) an OrdType outside {1, 2} gives 35=3 with 371=40, 373=2; (4) for
OrdType 2, a tag 44 (defaulted to "0") that is not a positive number
gives 35=3 with 371=44, 373=5; (5) a ClOrdID already in the store gives
a business reject 35=8 with 150=8, 39=8.  In every case exactly one
reject is emitted, the store is unchanged, and no scenario runs. -/
theorem handleD_validation_ladder (st : SState) (ep : Nat) (m : Msg) :
    (∀ t rest, requiredTagsD.filter (fun t => tagFalsy m t) = t :: rest →
      handleD st ep m = ⟨st, [reject3 t (bytes "1") (echoIncSeq m)], []⟩) ∧
    (requiredTagsD.filter (fun t => tagFalsy m t) = [] →
      posNum ((alookup m (bytes "38")).getD []) = false →
      handleD st ep m = ⟨st, [reject3 (bytes "38") (bytes "5") (echoIncSeq m)], []⟩) ∧
    (requiredTagsD.filter (fun t => tagFalsy m t) = [] →
      posNum ((alookup m (bytes "38")).getD []) = true →
      (alookup m (bytes "40")).getD [] ≠ bytes "1" →
      (alookup m (bytes "40")).getD [] ≠ bytes "2" →
      handleD st ep m = ⟨st, [reject3 (bytes "40") (bytes "2") (echoIncSeq m)], []⟩) ∧
    (requiredTagsD.filter (fun t => tagFalsy m t) = [] →
      posNum ((alookup m (bytes "38")).getD []) = true →
      (alookup m (bytes "40")).getD [] = bytes "2" →
      posNum ((alookup m (bytes "44")).getD (bytes "0")) = false →
      handleD st ep m = ⟨st, [reject3 (bytes "44") (bytes "5") (echoIncSeq m)], []⟩) ∧
    (requiredTagsD.filter (fun t => tagFalsy m t) = [] →
      posNum ((alookup m (bytes "38")).getD []) = true →
      ((alookup m (bytes "40")).getD [] = bytes "1" ∨
        ((alookup m (bytes "40")).getD [] = bytes "2" ∧
          posNum ((alookup m (bytes "44")).getD (bytes "0")) = true)) →
      acontains st.orders ((alookup m (bytes "11")).getD []) = true →
      handleD st ep m =
        ⟨st, [execReject8 ((alookup m (bytes "11")).getD []) none (echoIncSeq m)], []⟩) := by
  refine ⟨?_, ?_, ?_, ?_, ?_⟩
  · intro t rest hfil
    rw [handleD, hfil]
  · intro h1 h2
    rw [handleD, h1]
    simp [h2]
  · intro h1 h2 h3 h4
    rw [handleD, h1]
    simp [h2, h3, h4]
  · intro h1 h2 h3 h4
    rw [handleD, h1]
    simp [h2, h3, h4]
  · intro h1 h2 h3 h4
    rw [handleD, h1]
    rcases h3 with h3 | ⟨h3, h3'⟩
    · have hne2 : (alookup m (bytes "40")).getD [] ≠ bytes "2" := by
        rw [h3]
        decide
      simp [h2, h3, hne2, h4]
      intro hc
      exact absurd hc (by decide)
    · simp [h2, h3, h3', h4]
/-- Witness for C5: each of the five ladder branches evaluated on a
concrete NewOrderSingle triggering exactly that branch. -/
theorem handleD_validation_ladder_witness :
    (handleD initState 3 [(bytes "35", bytes "D")] =
        ⟨initState, [reject3 (bytes "11") (bytes "1")
          (echoIncSeq [(bytes "35", bytes "D")])], []⟩) ∧
      (handleD initState 3 mBadQty =
        ⟨initState, [reject3 (bytes "38") (bytes "5") (echoIncSeq mBadQty)], []⟩) ∧
      (handleD initState 3 mBadOrdType =
        ⟨initState, [reject3 (bytes "40") (bytes "2") (echoIncSeq mBadOrdType)], []⟩) ∧
      (handleD initState 3 mBadPrice =
        ⟨initState, [reject3 (bytes "44") (bytes "5") (echoIncSeq mBadPrice)], []⟩) ∧
      (handleD stD 3 mD1 =
        ⟨stD, [execReject8 (bytes "ORD1") none (echoIncSeq mD1)], []⟩) :=
  ⟨(handleD_validation_ladder initState 3 _).1 (bytes "11")
      [bytes "54", bytes "38", bytes "55", bytes "40"] (by decide),
    (handleD_validation_ladder initState 3 mBadQty).2.1 (by decide) (by decide),
    (handleD_validation_ladder initState 3 mBadOrdType).2.2.1 (by decide)
      (by decide) (by decide) (by decide),
    (handleD_validation_ladder initState 3 mBadPrice).2.2.2.1 (by decide)
      (by decide) (by decide) (by decide),
    (handleD_validation_ladder stD 3 mD1).2.2.2.2 (by decide) (by decide)
      (Or.inr ⟨by decide, by decide⟩) (by decide)⟩
theorem mkRat_one_four : mkRat 1 4 = (1 / 4 : ℚ) := by
  rw [Rat.mkRat_eq_div]
  norm_num
/-- C6: for an order with leaves L > 0, the scenario action `partial`
emits 150=1 with tag 32 = L/4, tag 39 = 1 if the post-state leaves is
positive else 2, and moves L/4 from leaves to cum; `fill` (and its alias
`full_fill`) emits 150=2, 39=2 with tag 32 = L and sets cum to origQty
and leaves to 0; the qty-100 order run through partial then fill emits
32=25/14=25/151=75 then 32=75/14=100/151=0 and ends Filled. -/
theorem scenario_partial_fill_spec (st : SState) (c : Str) (o : Order)
    (hord : alookup st.orders c = some o) (hl : 0 < o.leavesQty) :
    ((HandleScenarioAction st c (bytes "partial")).2 =
        [{ msgType := bytes "8", execType := some (bytes "1"),
           ordStatus := some (if 0 < o.leavesQty - o.leavesQty * (1 / 4)
             then bytes "1" else bytes "2"),
           clOrdId := some o.currentClOrdId,
           lastQty := some (o.leavesQty * (1 / 4)),
           cumQty14 := some (o.cumQty + o.leavesQty * (1 / 4)),
           leavesQty151 := some (o.leavesQty - o.leavesQty * (1 / 4)),
           seq34 := st.outSeq + 1 }]) ∧
      ((alookup (HandleScenarioAction st c (bytes "partial")).1.orders c).map
          (fun x => (x.cumQty, x.leavesQty)) =
        some (o.cumQty + o.leavesQty * (1 / 4), o.leavesQty - o.leavesQty * (1 / 4))) ∧
      HandleScenarioAction st c (bytes "full_fill") =
        HandleScenarioAction st c (bytes "fill") ∧
      ((HandleScenarioAction st c (bytes "fill")).2 =
        [{ msgType := bytes "8", execType := some (bytes "2"),
           ordStatus := some (bytes "2"), clOrdId := some o.currentClOrdId,
           lastQty := some o.leavesQty, cumQty14 := some (origQtyOf o),
           leavesQty151 := some 0, seq34 := st.outSeq + 1 }]) ∧
      ((alookup (HandleScenarioAction st c (bytes "fill")).1.orders c).map
          (fun x => (x.cumQty, x.leavesQty, x.status)) =
        some (origQtyOf o, 0, Status.filled)) ∧
      ((HandleScenarioAction stD (bytes "ORD1") (bytes "partial")).2.map
          (fun u => (u.lastQty, u.cumQty14, u.leavesQty151)) =
        [(some 25, some 25, some 75)]) ∧
      ((HandleScenarioAction
            (HandleScenarioAction stD (bytes "ORD1") (bytes "partial")).1
            (bytes "ORD1") (bytes "fill")).2.map
          (fun u => (u.lastQty, u.cumQty14, u.leavesQty151)) =
        [(some 75, some 100, some 0)]) ∧
      ((alookup (HandleScenarioAction
            (HandleScenarioAction stD (bytes "ORD1") (bytes "partial")).1
            (bytes "ORD1") (bytes "fill")).1.orders (bytes "ORD1")).map
          (fun x => (x.cumQty, x.leavesQty, x.status)) =
        some (100, 0, Status.filled)) := by
  have hpart : HandleScenarioAction st c (bytes "partial") =
      (SState.mk
        (aupdate st.orders c (fun _ =>
          { o with
              cumQty := qadd o.cumQty (qmul o.leavesQty (mkRat 1 4))
              leavesQty := qsub o.leavesQty (qmul o.leavesQty (mkRat 1 4))
              status := statusOfOrdStatus
                (if 0 < qsub o.leavesQty (qmul o.leavesQty (mkRat 1 4))
                  then bytes "1" else bytes "2") o.status }))
        (st.outSeq + 1),
      [{ msgType := bytes "8", execType := some (bytes "1"),
         ordStatus := some (if 0 < qsub o.leavesQty (qmul o.leavesQty (mkRat 1 4))
           then bytes "1" else bytes "2"),
         clOrdId := some o.currentClOrdId,
         lastQty := some (qmul o.leavesQty (mkRat 1 4)),
         cumQty14 := some (qadd o.cumQty (qmul o.leavesQty (mkRat 1 4))),
         leavesQty151 := some (qsub o.leavesQty (qmul o.leavesQty (mkRat 1 4))),
         seq34 := st.outSeq + 1 }]) := by
    simp only [HandleScenarioAction, hord]
    rw [sendScenarioExec]
    rw [if_neg (by decide : ¬ (bytes "partial" = bytes "new")),
      if_pos (rfl : bytes "partial" = bytes "partial")]
    simp only [if_pos hl]
  have hfill : HandleScenarioAction st c (bytes "fill") =
      (SState.mk
        (aupdate st.orders c (fun _ =>
          { o with
              cumQty := origQtyOf o
              leavesQty := 0
              status := statusOfOrdStatus (bytes "2") o.status }))
        (st.outSeq + 1),
      [{ msgType := bytes "8", execType := some (bytes "2"),
         ordStatus := some (bytes "2"), clOrdId := some o.currentClOrdId,
         lastQty := some o.leavesQty, cumQty14 := some (origQtyOf o),
         leavesQty151 := some 0, seq34 := st.outSeq + 1 }]) := by
    simp only [HandleScenarioAction, hord]
    rw [sendScenarioExec]
    rw [if_neg (by decide : ¬ (bytes "fill" = bytes "new")),
      if_neg (by decide : ¬ (bytes "fill" = bytes "partial"))]
    rw [if_pos (by decide :
      (decide (bytes "fill" = bytes "full_fill") ||
        decide (bytes "fill" = bytes "fill")) = true)]
    rw [if_pos hl, origQtyOf]
  have hff : HandleScenarioAction st c (bytes "full_fill") =
      HandleScenarioAction st c (bytes "fill") := by
    simp only [HandleScenarioAction, hord]
    rw [sendScenarioExec, sendScenarioExec]
    rw [if_neg (by decide : ¬ (bytes "full_fill" = bytes "new")),
      if_neg (by decide : ¬ (bytes "full_fill" = bytes "partial")),
      if_neg (by decide : ¬ (bytes "fill" = bytes "new")),
      if_neg (by decide : ¬ (bytes "fill" = bytes "partial"))]
    rw [if_pos (by decide :
      (decide (bytes "full_fill" = bytes "full_fill") ||
        decide (bytes "full_fill" = bytes "fill")) = true)]
    rw [if_pos (by decide :
      (decide (bytes "fill" = bytes "full_fill") ||
        decide (bytes "fill" = bytes "fill")) = true)]
  refine ⟨?_, ?_, hff, ?_, ?_, by decide, by decide, by decide⟩
  · rw [hpart]
    simp only [qadd_eq, qsub_eq, qmul_eq, mkRat_one_four]
  · rw [hpart]
    simp only []
    rw [alookup_aupdate_of_lookup _ _ _ _ hord]
    simp only [Option.map_some', qadd_eq, qsub_eq, qmul_eq, mkRat_one_four]
  · rw [hfill]
  · rw [hfill]
    simp only []
    rw [alookup_aupdate_of_lookup _ _ _ _ hord]
    rfl
/-- Witness for C6: the general clauses applied to the stored qty-100
order, whose leaves are positive. -/
theorem scenario_partial_fill_spec_witness :
    ((HandleScenarioAction stD (bytes "ORD1") (bytes "partial")).2 =
        [{ msgType := bytes "8", execType := some (bytes "1"),
           ordStatus := some (if 0 < ordD1w.leavesQty - ordD1w.leavesQty * (1 / 4)
             then bytes "1" else bytes "2"),
           clOrdId := some ordD1w.currentClOrdId,
           lastQty := some (ordD1w.leavesQty * (1 / 4)),
           cumQty14 := some (ordD1w.cumQty + ordD1w.leavesQty * (1 / 4)),
           leavesQty151 := some (ordD1w.leavesQty - ordD1w.leavesQty * (1 / 4)),
           seq34 := stD.outSeq + 1 }]) ∧
      ((alookup (HandleScenarioAction stD (bytes "ORD1") (bytes "partial")).1.orders
            (bytes "ORD1")).map (fun x => (x.cumQty, x.leavesQty)) =
        some (ordD1w.cumQty + ordD1w.leavesQty * (1 / 4),
          ordD1w.leavesQty - ordD1w.leavesQty * (1 / 4))) ∧
      HandleScenarioAction stD (bytes "ORD1") (bytes "full_fill") =
        HandleScenarioAction stD (bytes "ORD1") (bytes "fill") ∧
      ((HandleScenarioAction stD (bytes "ORD1") (bytes "fill")).2 =
        [{ msgType := bytes "8", execType := some (bytes "2"),
           ordStatus := some (bytes "2"), clOrdId := some ordD1w.currentClOrdId,
           lastQty := some ordD1w.leavesQty, cumQty14 := some (origQtyOf ordD1w),
           leavesQty151 := some 0, seq34 := stD.outSeq + 1 }]) ∧
      ((alookup (HandleScenarioAction stD (bytes "ORD1") (bytes "fill")).1.orders
            (bytes "ORD1")).map (fun x => (x.cumQty, x.leavesQty, x.status)) =
        some (origQtyOf ordD1w, 0, Status.filled)) ∧
      ((HandleScenarioAction stD (bytes "ORD1") (bytes "partial")).2.map
          (fun u => (u.lastQty, u.cumQty14, u.leavesQty151)) =
        [(some 25, some 25, some 75)]) ∧
      ((HandleScenarioAction
            (HandleScenarioAction stD (bytes "ORD1") (bytes "partial")).1
            (bytes "ORD1") (bytes "fill")).2.map
          (fun u => (u.lastQty, u.cumQty14, u.leavesQty151)) =
        [(some 75, some 100, some 0)]) ∧
      ((alookup (HandleScenarioAction
            (HandleScenarioAction stD (bytes "ORD1") (bytes "partial")).1
            (bytes "ORD1") (bytes "fill")).1.orders (bytes "ORD1")).map
          (fun x => (x.cumQty, x.leavesQty, x.status)) =
        some (100, 0, Status.filled)) :=
  scenario_partial_fill_spec stD (bytes "ORD1") ordD1w (by decide) (by decide)
/-- C8: for a message whose MsgType has a schema, the verdict lists a
conditional-pair error for `(a, b)` iff exactly one of the two tags is
present, a missing-required error iff some required tag is absent, an
unexpected-tags error iff some tag lies outside
required ∪ optional ∪ customAllowed, and is "Valid" iff none occur. -/
theorem checkFields_spec (msg : Msg) (t : Str) (req opt : List Str)
    (conds : List (Str × Str)) (v : Verdict)
    (h35 : alookup msg (bytes "35") = some t)
    (hschema : schemaOf t = some (req, opt, conds))
    (hv : ValidateMsgType t msg = some v) :
    (∀ a b, (a, b) ∈ v.condErrors ↔
      ((a, b) ∈ conds ∧ xor (acontains msg a) (acontains msg b) = true)) ∧
    (v.missing ≠ [] ↔ ∃ tg ∈ req, acontains msg tg = false) ∧
    (v.unexpected ≠ [] ↔ ∃ tg ∈ msg.map Prod.fst,
      tg ∉ req ++ opt ++ customTagsByType t) ∧
    (v.isValid = true ↔
      ((∀ tg ∈ req, acontains msg tg = true) ∧
        (∀ tg ∈ msg.map Prod.fst, tg ∈ req ++ opt ++ customTagsByType t) ∧
        (∀ a b, (a, b) ∈ conds →
          xor (acontains msg a) (acontains msg b) = false))) := by
  have hveq : v = CheckFields req opt conds msg := by
    rw [ValidateMsgType, hschema] at hv
    simpa using hv.symm
  have hmt : (alookup msg (bytes "35")).getD [] = t := by rw [h35]; rfl
  subst hveq
  rw [CheckFields]
  simp only [hmt]
  refine ⟨?_, ?_, ?_, ?_⟩
  · intro a b
    simp [List.mem_filter]
  · rw [← not_iff_not]
    push_neg
    simp only [ne_eq, not_not, List.filter_eq_nil]
    constructor
    · intro h tg htg
      have := h tg htg
      simpa using this
    · intro h tg htg
      simpa using h tg htg
  · rw [← not_iff_not]
    push_neg
    simp only [ne_eq, not_not, List.filter_eq_nil]
    constructor
    · intro h tg htg
      have h2 := h tg htg
      simp at h2
      simp only [List.mem_append] at *
      tauto
    · intro h tg htg
      have h2 := h tg htg
      simp only [List.mem_append] at h2
      simp
      tauto
  · rw [Verdict.isValid]
    simp only [Bool.and_eq_true, decide_eq_true_eq, List.filter_eq_nil]
    constructor
    · rintro ⟨⟨hmis, hunx⟩, hcond⟩
      refine ⟨?_, ?_, ?_⟩
      · intro tg htg
        have := hmis tg htg
        simpa using this
      · intro tg htg
        have h2 := hunx tg htg
        simp at h2
        simp only [List.mem_append] at *
        tauto
      · intro a b hab
        have := hcond (a, b) hab
        simpa using this
    · rintro ⟨hmis, hunx, hcond⟩
      refine ⟨⟨?_, ?_⟩, ?_⟩
      · intro tg htg
        simpa using hmis tg htg
      · intro tg htg
        have h2 := hunx tg htg
        simp only [List.mem_append] at h2
        simp
        tauto
      · intro p hp
        obtain ⟨a, b⟩ := p
        simpa using hcond a b hp
/-- Witness for C8: the verdict of a complete Logon message. -/
theorem checkFields_spec_witness :
    (∀ a b, (a, b) ∈ (Verdict.mk [] [] []).condErrors ↔
      ((a, b) ∈ logonConditionals ∧
        xor (acontains mVal a) (acontains mVal b) = true)) ∧
    ((Verdict.mk [] [] []).missing ≠ [] ↔
      ∃ tg ∈ logonRequired, acontains mVal tg = false) ∧
    ((Verdict.mk [] [] []).unexpected ≠ [] ↔ ∃ tg ∈ mVal.map Prod.fst,
      tg ∉ logonRequired ++ logonOptional ++ customTagsByType (bytes "A")) ∧
    ((Verdict.mk [] [] []).isValid = true ↔
      ((∀ tg ∈ logonRequired, acontains mVal tg = true) ∧
        (∀ tg ∈ mVal.map Prod.fst,
          tg ∈ logonRequired ++ logonOptional ++ customTagsByType (bytes "A")) ∧
        (∀ a b, (a, b) ∈ logonConditionals →
          xor (acontains mVal a) (acontains mVal b) = false))) :=
  checkFields_spec mVal (bytes "A") logonRequired logonOptional
    logonConditionals (Verdict.mk [] [] []) (by decide) (by decide) (by decide)
/-- C9 (corrected: the session does NOT keep serving): an unknown step
key makes `executeStep` raise a descriptive error; the steps before it
run normally, nothing is emitted for the unknown step or after it, and
the error propagates out of `HandleClient` uncaught, so the handler
thread dies and subsequent inbound messages get no responses. -/
theorem scenario_unknownStep_spec :
    (∀ (st : SState) (c k : Str) (pre post : List Step),
      (∀ s ∈ pre, s.isUnknown = false) →
      runSteps st c (pre ++ Step.unknown k :: post) =
        ((runSteps st c pre).1, (runSteps st c pre).2.1,
          some (unsupportedStepMsg k))) ∧
    (∀ (cfg : SessionConfig) (st : SState) (ep : Nat) (m : Msg) (e : Str)
      (rest : List (Nat × Msg)),
      (sessStep cfg st ep m).outcome = SessOutcome.crashed e →
      sessRun cfg st ((ep, m) :: rest) =
        ((sessStep cfg st ep m).state, (sessStep cfg st ep m).outs)) := by
  constructor
  · intro st c k pre post hpre
    induction pre generalizing st with
    | nil => rfl
    | cons s rest ih =>
        have hs : s.isUnknown = false := hpre s (List.mem_cons_self _ _)
        have hrest : ∀ x ∈ rest, x.isUnknown = false := fun x hx =>
          hpre x (List.mem_cons_of_mem _ hx)
        cases s with
        | send a =>
            simp [runSteps, executeStep, List.append_eq, ih _ hrest,
              List.append_assoc]
        | delay ms => simp [runSteps, executeStep, List.append_eq, ih _ hrest]
        | waitFor ev => simp [runSteps, executeStep, List.append_eq, ih _ hrest]
        | done => simp [runSteps, executeStep, List.append_eq, ih _ hrest]
        | unknown key => simp [Step.isUnknown] at hs
  · intro cfg st ep m e rest h
    rw [sessRun]
    simp only [h]
/-- Witness for C9: a behavior running one good send before the unknown
step, and a crashed session dropping a pending heartbeat. -/
theorem scenario_unknownStep_spec_witness :
    (runSteps stD (bytes "ORD1")
        ([Step.send (bytes "cancel")] ++ Step.unknown (bytes "bogus") :: [Step.done]) =
      ((runSteps stD (bytes "ORD1") [Step.send (bytes "cancel")]).1,
        (runSteps stD (bytes "ORD1") [Step.send (bytes "cancel")]).2.1,
        some (unsupportedStepMsg (bytes "bogus")))) ∧
    (sessRun cfgBad initState [(1, mD1), (2, mHB)] =
      ((sessStep cfgBad initState 1 mD1).state,
        (sessStep cfgBad initState 1 mD1).outs)) :=
  ⟨scenario_unknownStep_spec.1 stD (bytes "ORD1") (bytes "bogus")
      [Step.send (bytes "cancel")] [Step.done] (by decide),
    scenario_unknownStep_spec.2 cfgBad initState 1 mD1
      (unsupportedStepMsg (bytes "bogus")) [(2, mHB)] (by decide)⟩
/-- Counterexample to C9 as stated: after the accepted order's behavior
hits the unknown step, the handler crashes with the descriptive error,
and the following Heartbeat receives no response — the session does not
keep serving subsequent messages. -/
theorem scenario_unknownStep_session_cex :
    (sessStep cfgBad initState 1 mD1).outcome =
        SessOutcome.crashed (unsupportedStepMsg (bytes "bogus")) ∧
      (sessRun cfgBad initState [(1, mD1), (2, mHB)]).2.map Out.msgType =
        [bytes "8"] ∧
      bytes "0" ∉ (sessRun cfgBad initState [(1, mD1), (2, mHB)]).2.map
        Out.msgType := by decide
/-- C10: when a tag occurs several times in a raw frame (emulator
parser) or a log line (validator parser), the resulting dict binds it to
the value of its last occurrence. -/
theorem parse_last_occurrence (raw line t : Str)
    (h1 : 2 ≤ ((parseSegs raw).filter (fun p => decide (p.1 = t))).length)
    (h2 : 2 ≤ ((parseLogSegs line).filter (fun p => decide (p.1 = t))).length) :
    alookup (ParseFixMessage raw) t =
      (((parseSegs raw).filter (fun p => decide (p.1 = t))).getLast?).map Prod.snd ∧
    alookup (parseLogLine line) t =
      (((parseLogSegs line).filter (fun p => decide (p.1 = t))).getLast?).map Prod.snd :=
  ⟨alookup_dictOf _ _, alookup_dictOf _ _⟩

/-- Witness for C10: tag 55 bound twice in a raw SOH frame and in a
pipe-delimited log line; both parsers keep the second value. -/
theorem parse_last_occurrence_witness :
    2 ≤ ((parseSegs (bytes "55=A" ++ [SOH] ++ bytes "55=B" ++ [SOH])).filter
        (fun p => decide (p.1 = bytes "55"))).length ∧
      2 ≤ ((parseLogSegs (bytes "35=D|55=A|55=B")).filter
        (fun p => decide (p.1 = bytes "55"))).length ∧
      (alookup (ParseFixMessage (bytes "55=A" ++ [SOH] ++ bytes "55=B" ++ [SOH]))
          (bytes "55") =
        (((parseSegs (bytes "55=A" ++ [SOH] ++ bytes "55=B" ++ [SOH])).filter
          (fun p => decide (p.1 = bytes "55"))).getLast?).map Prod.snd ∧
      alookup (parseLogLine (bytes "35=D|55=A|55=B")) (bytes "55") =
        (((parseLogSegs (bytes "35=D|55=A|55=B")).filter
          (fun p => decide (p.1 = bytes "55"))).getLast?).map Prod.snd) :=
  ⟨by decide, by decide,
    parse_last_occurrence (bytes "55=A" ++ [SOH] ++ bytes "55=B" ++ [SOH])
      (bytes "35=D|55=A|55=B") (bytes "55") (by decide) (by decide)⟩

theorem natDigitsAux_mem (fuel : Nat) : ∀ (n : Nat), ∀ b ∈ natDigitsAux fuel n,
    48 ≤ b ∧ b ≤ 57 := by
  induction fuel with
  | zero => intro n b hb; simp [natDigitsAux] at hb
  | succ fuel ih =>
      intro n b hb
      rw [natDigitsAux] at hb
      by_cases hn : n = 0
      · simp [hn] at hb
      · rw [if_neg hn] at hb
        rcases List.mem_append.mp hb with hb | hb
        · exact ih _ b hb
        · have hlt : n % 10 < 10 := Nat.mod_lt _ (by norm_num)
          simp only [List.mem_singleton] at hb
          omega
theorem natDigits_mem (n : Nat) : ∀ b ∈ natDigits n, 48 ≤ b ∧ b ≤ 57 := by
  intro b hb
  rw [natDigits] at hb
  by_cases hn : n = 0
  · simp [hn] at hb
    omega
  · rw [if_neg hn] at hb
    exact natDigitsAux_mem n n b hb
theorem pad3_mem (n : Nat) : ∀ b ∈ pad3 n, 48 ≤ b ∧ b ≤ 57 := by
  intro b hb
  rw [pad3] at hb
  rcases List.mem_append.mp hb with hb | hb
  · have := List.eq_of_mem_replicate hb
    omega
  · exact natDigits_mem n b hb
theorem soh_not_mem_natDigits (n : Nat) : SOH ∉ natDigits n := by
  intro h
  have := natDigits_mem n SOH h
  rw [SOH] at this
  omega
theorem soh_not_mem_pad3 (n : Nat) : SOH ∉ pad3 n := by
  intro h
  have := pad3_mem n SOH h
  rw [SOH] at this
  omega
theorem not_mem_of_digits {l : Str} (hd : ∀ b ∈ l, isDigitB b = true) :
    SOH ∉ l ∧ EQB ∉ l := by
  constructor
  · intro h
    have := hd SOH h
    rw [SOH, isDigitB] at this
    simp at this
  · intro h
    have := hd EQB h
    rw [EQB, isDigitB] at this
    simp at this
theorem splitByte_append (sep : Nat) (s rest : Str) (h : sep ∉ s) :
    splitByte sep (s ++ sep :: rest) = s :: splitByte sep rest := by
  induction s with
  | nil => simp [splitByte]
  | cons b s ih =>
      have hb : b ≠ sep := fun hc => h (hc ▸ List.mem_cons_self _ _)
      have hs : sep ∉ s := fun hc => h (List.mem_cons_of_mem _ hc)
      rw [List.cons_append, splitByte, if_neg (fun hc => hb hc), ih hs]
theorem takeWhile_field (t v : Str) (ht : EQB ∉ t) :
    (t ++ EQB :: v).takeWhile (fun b => b ≠ EQB) = t := by
  induction t with
  | nil => simp [List.takeWhile]
  | cons b s ih =>
      have hb : b ≠ EQB := fun hc => ht (hc ▸ List.mem_cons_self _ _)
      have hs : EQB ∉ s := fun hc => ht (List.mem_cons_of_mem _ hc)
      rw [List.cons_append, List.takeWhile_cons, if_pos (by simp [hb]), ih hs]
theorem dropWhile_field (t v : Str) (ht : EQB ∉ t) :
    (t ++ EQB :: v).dropWhile (fun b => b ≠ EQB) = EQB :: v := by
  induction t with
  | nil => simp [List.dropWhile]
  | cons b s ih =>
      have hb : b ≠ EQB := fun hc => ht (hc ▸ List.mem_cons_self _ _)
      have hs : EQB ∉ s := fun hc => ht (List.mem_cons_of_mem _ hc)
      rw [List.cons_append, List.dropWhile_cons, if_pos (by simp [hb])]
      exact ih hs
theorem splitEq_field (t v : Str) (ht : EQB ∉ t) :
    splitEq (t ++ EQB :: v) = some (t, v) := by
  have hmem : EQB ∈ t ++ EQB :: v := List.mem_append.mpr (Or.inr (List.mem_cons_self _ _))
  rw [splitEq, if_pos hmem, takeWhile_field t v ht, dropWhile_field t v ht]
  rfl
theorem joinSOH_cons_cons (s1 s2 : Str) (rest : List Str) :
    joinSOH (s1 :: s2 :: rest) = s1 ++ [SOH] ++ joinSOH (s2 :: rest) := rfl
theorem append_soh_cons (a r : Str) : a ++ [SOH] ++ r = a ++ SOH :: r := by
  simp
theorem append_soh_assoc (a b r : Str) :
    a ++ [SOH] ++ b ++ [SOH] ++ r = a ++ SOH :: (b ++ [SOH] ++ r) := by
  simp [List.append_assoc]
theorem parse_join (fields : List (Str × Str)) (r : Str)
    (hwf : ∀ p ∈ fields, SOH ∉ p.1 ∧ EQB ∉ p.1 ∧ SOH ∉ p.2) :
    (splitByte SOH
        (joinSOH (fields.map (fun p => p.1 ++ [EQB] ++ p.2)) ++ [SOH] ++ r)).filterMap
      splitEq = fields ++ (splitByte SOH r).filterMap splitEq := by
  induction fields with
  | nil =>
      rw [List.map_nil, joinSOH, List.nil_append, List.singleton_append, splitByte,
        if_pos rfl]
      rw [List.filterMap_cons]
      simp [splitEq, EQB]
  | cons p tl ih =>
      obtain ⟨hp1, hp2, hp3⟩ := hwf p (List.mem_cons_self _ _)
      have hseg : SOH ∉ p.1 ++ [EQB] ++ p.2 := by
        intro hc
        rcases List.mem_append.mp hc with hc | hc
        · rcases List.mem_append.mp hc with hc | hc
          · exact hp1 hc
          · simp [SOH, EQB] at hc
        · exact hp3 hc
      have hsome : splitEq (p.1 ++ [EQB] ++ p.2) = some p := by
        rw [List.append_assoc, List.singleton_append, splitEq_field _ _ hp2]
      cases tl with
      | nil =>
          rw [List.map_cons, List.map_nil, joinSOH, append_soh_cons,
            splitByte_append SOH _ _ hseg, List.filterMap_cons, hsome]
          simp
      | cons q tl' =>
          have hwf' : ∀ x ∈ q :: tl', SOH ∉ x.1 ∧ EQB ∉ x.1 ∧ SOH ∉ x.2 :=
            fun x hx => hwf x (List.mem_cons_of_mem _ hx)
          have ihq := ih hwf'
          simp only [List.map_cons] at ihq
          rw [List.map_cons, List.map_cons, joinSOH_cons_cons, append_soh_assoc,
            splitByte_append SOH _ _ hseg, List.filterMap_cons, hsome, ihq]
          simp
theorem pstrip_eq_self (s : Str) (h1 : s.head? = some 56)
    (h2 : s.getLast? = some SOH) : pstrip s = s := by
  rw [pstrip]
  have hd : s.dropWhile isSpaceB = s := by
    cases s with
    | nil => simp at h1
    | cons a l =>
        have ha : a = 56 := by simpa using h1
        subst ha
        rw [List.dropWhile_cons, if_neg (by decide)]
  rw [hd]
  have hrev : s.reverse.dropWhile isSpaceB = s.reverse := by
    have hh : s.reverse.head? = some SOH := by
      rw [List.head?_reverse]
      exact h2
    cases hr : s.reverse with
    | nil => rw [hr] at hh; simp at hh
    | cons a l =>
        rw [hr] at hh
        have ha : a = SOH := by simpa using hh
        subst ha
        rw [List.dropWhile_cons, if_neg (by decide)]
  rw [hrev, List.reverse_reverse]
theorem build_head (fields : List (Str × Str)) :
    (BuildFixMessage fields).head? = some 56 := rfl
theorem build_last (fields : List (Str × Str)) :
    (BuildFixMessage fields).getLast? = some SOH := by
  show (buildPrefixOf fields ++ bytes "10=" ++
    pad3 (CalculateChecksum (buildPrefixOf fields)) ++ [SOH]).getLast? = some SOH
  rw [List.getLast?_concat]
theorem soh_not_mem_h9 (L : Nat) : SOH ∉ bytes "9" ++ EQB :: natDigits L := by
  intro h
  rcases List.mem_append.mp h with h | h
  · simp [bytes, SOH] at h
  · rcases List.mem_cons.mp h with h | h
    · simp [SOH, EQB] at h
    · exact soh_not_mem_natDigits L h
/-- Parsing the built frame yields exactly the `8=`/`9=` header pair,
the caller's fields in order, and the `10=` checksum pair. -/
theorem parseSegs_build (fields : List (Str × Str)) (hwf : wfFields fields) :
    parseSegs (BuildFixMessage fields) =
      (bytes "8", bytes "FIX.4.2") :: (bytes "9", natDigits (bodyOf fields).length) ::
        (fields ++ [(bytes "10", pad3 (CalculateChecksum (buildPrefixOf fields)))]) := by
  have hfil : fields.filter (fun p =>
      p.1 ≠ bytes "8" ∧ p.1 ≠ bytes "9" ∧ p.1 ≠ bytes "10") = fields := by
    rw [List.filter_eq_self]
    intro p hp
    obtain ⟨_, _, h8, h9, h10, _⟩ := hwf p hp
    simp [h8, h9, h10]
  have hwf' : ∀ p ∈ fields, SOH ∉ p.1 ∧ EQB ∉ p.1 ∧ SOH ∉ p.2 := by
    intro p hp
    obtain ⟨_, hdig, _, _, _, hsoh⟩ := hwf p hp
    obtain ⟨hs, he⟩ := not_mem_of_digits hdig
    exact ⟨hs, he, hsoh⟩
  have heq : BuildFixMessage fields =
      bytes "8=FIX.4.2" ++ SOH ::
        ((bytes "9" ++ EQB :: natDigits (bodyOf fields).length) ++ SOH ::
          (joinSOH (fields.map (fun p => p.1 ++ [EQB] ++ p.2)) ++ [SOH] ++
            ((bytes "10" ++ EQB :: pad3 (CalculateChecksum (buildPrefixOf fields))) ++
              SOH :: []))) := by
    show buildPrefixOf fields ++ bytes "10=" ++
        pad3 (CalculateChecksum (buildPrefixOf fields)) ++ [SOH] = _
    simp only [buildPrefixOf, bodyOf, hfil,
      show bytes "9=" = bytes "9" ++ [EQB] from by decide,
      show bytes "10=" = bytes "10" ++ [EQB] from by decide]
    simp [List.append_assoc]
  rw [parseSegs, pstrip_eq_self _ (build_head fields) (build_last fields), heq]
  rw [splitByte_append SOH _ _ (by decide)]
  rw [splitByte_append SOH _ _ (soh_not_mem_h9 _)]
  rw [List.filterMap_cons, List.filterMap_cons]
  have h8seg : splitEq (bytes "8=FIX.4.2") = some (bytes "8", bytes "FIX.4.2") := by
    decide
  have h9seg : splitEq (bytes "9" ++ EQB :: natDigits (bodyOf fields).length) =
      some (bytes "9", natDigits (bodyOf fields).length) :=
    splitEq_field _ _ (by decide)
  rw [h8seg, h9seg, parse_join fields _ hwf']
  have hsp : SOH ∉ bytes "10" ++ EQB :: pad3 (CalculateChecksum (buildPrefixOf fields)) := by
    intro h
    rcases List.mem_append.mp h with h | h
    · simp [bytes, SOH] at h
    · rcases List.mem_cons.mp h with h | h
      · simp [SOH, EQB] at h
      · exact soh_not_mem_pad3 _ h
  rw [splitByte_append SOH _ _ hsp]
  rw [List.filterMap_cons]
  have h10seg : splitEq (bytes "10" ++
      EQB :: pad3 (CalculateChecksum (buildPrefixOf fields))) =
      some (bytes "10", pad3 (CalculateChecksum (buildPrefixOf fields))) :=
    splitEq_field _ _ (by decide)
  rw [h10seg]
  have hnil : (splitByte SOH []).filterMap splitEq = [] := by decide
  rw [hnil]
/-- In a map with pairwise-distinct keys, filtering on one present key
isolates exactly its pair. -/
theorem filter_key_unique (fields : List (Str × Str)) (t v : Str)
    (hdis : fields.Pairwise (fun p q => p.1 ≠ q.1)) (hmem : (t, v) ∈ fields) :
    fields.filter (fun p => decide (p.1 = t)) = [(t, v)] := by
  induction fields with
  | nil => simp at hmem
  | cons a rest ih =>
      rcases List.pairwise_cons.mp hdis with ⟨ha, hrest⟩
      rcases List.mem_cons.mp hmem with heq | hmemr
      · subst heq
        rw [List.filter_cons_of_pos (by simp)]
        have hnone : rest.filter (fun p => decide (p.1 = t)) = [] := by
          rw [List.filter_eq_nil]
          intro q hq
          have := ha q hq
          simpa using Ne.symm this
        rw [hnone]
      · have hat : a.1 ≠ t := by
          have := ha (t, v) hmemr
          simpa using this
        rw [List.filter_cons_of_neg (by simpa using hat), ih hrest hmemr]
/-- C7: for a well-formed field map, parsing the built frame recovers
every field (the dict maps each caller tag to its value), and the frame
ends in a `10=` field holding the zero-padded three-digit byte-sum mod
256 of everything that precedes it. -/
theorem build_parse_roundtrip (fields : List (Str × Str))
    (hwf : wfFields fields)
    (hdis : fields.Pairwise (fun p q => p.1 ≠ q.1)) :
    (∀ p ∈ fields, alookup (ParseFixMessage (BuildFixMessage fields)) p.1 =
      some p.2) ∧
    BuildFixMessage fields =
      buildPrefixOf fields ++ bytes "10=" ++
        pad3 (CalculateChecksum (buildPrefixOf fields)) ++ [SOH] := by
  refine ⟨?_, rfl⟩
  intro p hp
  obtain ⟨hne, hdig, h8, h9, h10, hsoh⟩ := hwf p hp
  rw [ParseFixMessage, alookup_dictOf, parseSegs_build fields hwf]
  rw [List.filter_cons_of_neg (by simpa using fun hc => h8 hc.symm)]
  rw [List.filter_cons_of_neg (by simpa using fun hc => h9 hc.symm)]
  rw [List.filter_append]
  rw [filter_key_unique fields p.1 p.2 hdis hp]
  rw [List.filter_cons_of_neg (by simpa using fun hc => h10 hc.symm),
    List.filter_nil]
  rfl
/-- Witness for C7: a two-field map through build-then-parse. -/
theorem build_parse_roundtrip_witness :
    (∀ p ∈ [(bytes "35", bytes "A"), (bytes "49", bytes "CLIENT")],
      alookup (ParseFixMessage (BuildFixMessage
        [(bytes "35", bytes "A"), (bytes "49", bytes "CLIENT")])) p.1 =
          some p.2) ∧
    BuildFixMessage [(bytes "35", bytes "A"), (bytes "49", bytes "CLIENT")] =
      buildPrefixOf [(bytes "35", bytes "A"), (bytes "49", bytes "CLIENT")] ++
        bytes "10=" ++
        pad3 (CalculateChecksum
          (buildPrefixOf [(bytes "35", bytes "A"), (bytes "49", bytes "CLIENT")])) ++
        [SOH] :=
  build_parse_roundtrip [(bytes "35", bytes "A"), (bytes "49", bytes "CLIENT")]
    (by unfold wfFields; decide) (by decide)
end FixEm
